import Mathlib

/-!
Shallow embedding of the pyemul 6502 emulator (src/pyemul/mmu.py and
src/pyemul/cpu.py) together with theorems settling the specification
claims.  Python integers are unbounded, so registers and intermediate
values are modelled as `Int`; the byte arrays backing the MMU are
modelled as functions `Nat → Nat` holding values 0..255.  Python
built-in exceptions (IndexError, KeyError, TypeError, AttributeError,
OverflowError) and the two exception classes defined in mmu.py are
modelled by the `PyErr` type, and every fallible operation returns
`Except PyErr`.
-/

namespace PyEmul

/-- Exceptions that the modelled code can raise.  `memoryRangeError` and
`readOnlyError` are the classes defined in mmu.py; the rest are Python
built-ins. -/
inductive PyErr
  | indexError
  | keyError
  | typeError
  | attributeError
  | overflowError
  | memoryRangeError
  | readOnlyError
  deriving DecidableEq, Repr

/-! Python bitwise operators on unbounded twos-complement integers.
`Int.negSucc m` represents `-(m+1)`, whose twos-complement bit pattern
is the pointwise complement of the bits of `m`; the four constructor
cases below are the standard twos-complement case split.  The mixed
cases use `m - (m &&& n)`, which is the set of bits of `m` that are not
bits of `n` (the bits of `m &&& n` are a subset of the bits of `m`). -/

/-- Python `a & b` on arbitrary integers. -/
def pyAnd : Int → Int → Int
  | .ofNat m, .ofNat n => .ofNat (m &&& n)
  | .ofNat m, .negSucc n => .ofNat (m - (m &&& n))
  | .negSucc m, .ofNat n => .ofNat (n - (n &&& m))
  | .negSucc m, .negSucc n => .negSucc (m ||| n)

/-- Python `a | b` on arbitrary integers. -/
def pyOr : Int → Int → Int
  | .ofNat m, .ofNat n => .ofNat (m ||| n)
  | .ofNat m, .negSucc n => .negSucc (n - (n &&& m))
  | .negSucc m, .ofNat n => .negSucc (m - (m &&& n))
  | .negSucc m, .negSucc n => .negSucc (m &&& n)

/-- Python `a ^ b` on arbitrary integers. -/
def pyXor : Int → Int → Int
  | .ofNat m, .ofNat n => .ofNat (m ^^^ n)
  | .ofNat m, .negSucc n => .negSucc (m ^^^ n)
  | .negSucc m, .ofNat n => .negSucc (m ^^^ n)
  | .negSucc m, .negSucc n => .ofNat (m ^^^ n)

/-- Python `~a`; the documented identity is `~a = -a - 1`. -/
def pyNot (a : Int) : Int := -a - 1

/-- Python `a << b` for a nonnegative shift count: `a * 2 ^ b`. -/
def pyShl (a : Int) (b : Nat) : Int := a * 2 ^ b

/-- Python `a >> b` for a nonnegative shift count: floor division by
`2 ^ b`. -/
def pyShr (a : Int) (b : Nat) : Int := Int.fdiv a (2 ^ b)

/-- Python `bool(v)` for an integer `v`: truthy exactly when nonzero. -/
def pyTruthy (v : Int) : Bool := v != 0

/-- Python implicit bool-to-int conversion (True = 1, False = 0). -/
def boolInt (b : Bool) : Int := if b then 1 else 0

/-! ## MMU (src/pyemul/mmu.py) -/

/-- One entry of `MMU.blocks`: the dict stored by `add_block`
(`start`, `length`, `name`, `read-only`). -/
structure MMUBlock where
  start : Int
  length : Int
  name : String
  read_only : Bool

/-- The MMU state: `self.memory` and `self._read_only` are
`array.array` objects of length `0xffff` (note: one byte short of the
full 16-bit space), modelled as total functions on `Nat` together with
the fixed length; `self.blocks` is the list of allocated blocks. -/
structure MMU where
  memory : Nat → Nat
  read_only_mask : Nat → Bool
  blocks : List MMUBlock

/-- Length of the two backing arrays: `array.array('B', 0xffff*[0])`. -/
def memLen : Nat := 0xffff

/-- Python sequence indexing for an array of length `memLen`: index
`i` is valid when `-memLen ≤ i < memLen`, negative indices count from
the end, anything else raises IndexError. -/
def arrIdx (addr : Int) : Except PyErr Nat :=
  if 0 ≤ addr ∧ addr < (memLen : Int) then .ok addr.toNat
  else if -(memLen : Int) ≤ addr ∧ addr < 0 then .ok (addr + memLen).toNat
  else .error .indexError

/-- `MMU.read`: `return self.memory[addr]`. -/
def MMU.read (m : MMU) (addr : Int) : Except PyErr Nat := do
  let i ← arrIdx addr
  pure (m.memory i)

/-- `MMU.write`: check `self._read_only[addr]`, raising `ReadOnlyError`
when set, then `self.memory[addr] = value`.  Storing into an
`array.array('B', ...)` raises OverflowError unless `0 ≤ value ≤ 255`. -/
def MMU.write (m : MMU) (addr : Int) (value : Int) : Except PyErr MMU := do
  let i ← arrIdx addr
  if m.read_only_mask i then
    .error .readOnlyError
  else if 0 ≤ value ∧ value ≤ 255 then
    pure { m with memory := Function.update m.memory i value.toNat }
  else
    .error .overflowError

/-- The loop `for addr in range(start, start+count): self._read_only[addr] = 1`,
raising IndexError as soon as an index is out of range. -/
def markReadOnly (mask : Nat → Bool) (start : Int) : Nat → Except PyErr (Nat → Bool)
  | 0 => .ok mask
  | count + 1 => do
      let i ← arrIdx start
      markReadOnly (Function.update mask i true) (start + 1) count

/-- The loop `for addr in range(start, start+count): self.memory[addr] = data[addr - start]`,
raising IndexError when either the memory index or the data index is out
of range.  (`data` values come from a bytearray, hence are bytes.) -/
def copyData (mem : Nat → Nat) (data : List Nat) (start : Int) (offset : Nat) :
    Nat → Except PyErr (Nat → Nat)
  | 0 => .ok mem
  | count + 1 => do
      let i ← arrIdx start
      match data.get? offset with
      | none => .error .indexError
      | some v =>
          copyData (Function.update mem i v) data (start + 1) (offset + 1) count

/-- `MMU.add_block(start_addr, length, name, read_only, data)`.  The
overlap check raises `MemoryRangeError` when the start or the end of the
new block lies strictly inside an existing block; then the read-only
mask is set, initial data is copied (`if data:` skips `None` and the
empty bytearray), and the block descriptor is appended. -/
def MMU.add_block (m : MMU) (start_addr length : Int) (name : String)
    (read_only : Bool := false) (data : Option (List Nat) := none) :
    Except PyErr MMU :=
  let e := start_addr + length
  if m.blocks.any (fun block =>
      ((start_addr > block.start) && (start_addr < block.start + block.length)) ||
      ((e > block.start) && (e < block.start + block.length))) then
    .error .memoryRangeError
  else
    let new_mem : MMUBlock :=
      { start := start_addr, length := length, name := name, read_only := read_only }
    match (if read_only then
             markReadOnly m.read_only_mask start_addr (e - start_addr).toNat
           else .ok m.read_only_mask) with
    | .error err => .error err
    | .ok mask =>
      match (match data with
             | some d =>
                 if d ≠ [] then
                   copyData m.memory d start_addr 0 (e - start_addr).toNat
                 else .ok m.memory
             | none => .ok m.memory) with
      | .error err => .error err
      | .ok mem =>
          .ok { memory := mem, read_only_mask := mask, blocks := m.blocks ++ [new_mem] }

/-- The block-specification tuples passed to the MMU constructor. -/
structure BlockSpec where
  start_addr : Int
  length : Int
  name : String
  read_only : Bool := false
  data : Option (List Nat) := none

/-- `MMU.__init__`: start from pre-zeroed arrays and an empty block
list, then `add_block` each specification in order (the first raised
exception aborts construction). -/
def MMU.new (specs : List BlockSpec) : Except PyErr MMU :=
  specs.foldlM
    (fun m b => m.add_block b.start_addr b.length b.name b.read_only b.data)
    { memory := fun _ => 0, read_only_mask := fun _ => false, blocks := [] }

/-! ## Registers (src/pyemul/cpu.py, class Registers) -/

/-- The keys of the `flagbyte` dict; `U` is the unused bit written `?`
in the source. -/
inductive Flag
  | N | V | U | B | D | I | Z | C
  deriving DecidableEq, Repr

/-- The `flagbyte` dict: bit value of each status flag. -/
def flagbyte : Flag → Int
  | .N => 128
  | .V => 64
  | .U => 32
  | .B => 16
  | .D => 8
  | .I => 4
  | .Z => 2
  | .C => 1

/-- The 6502 register file.  All fields are Python ints.  `s_attr`
models the dynamic attribute `s` that `setattr(self.r, 's', v)` creates
when `TXS` runs (the Registers class itself has no `s` attribute, so
`getattr(self.r, 's')` raises AttributeError until then). -/
structure Registers where
  a : Int
  x : Int
  y : Int
  sp : Int
  pc : Int
  p : Int
  s_attr : Option Int := none

/-- `Registers.reset`: zero the data registers, `sp = 0xff`, the given
program counter, and `p` with only the unused and interrupt-disable
bits set. -/
def Registers.reset (program_counter : Int := 0) : Registers :=
  { a := 0, x := 0, y := 0, sp := 0xff, pc := program_counter,
    p := pyOr (flagbyte .U) (flagbyte .I) }

/-- `Registers.get_flag`: `bool(self.p & self.flagbyte[flag])`. -/
def Registers.get_flag (r : Registers) (flag : Flag) : Bool :=
  pyTruthy (pyAnd r.p (flagbyte flag))

/-- Shared body of the two branches of `Registers.set_flag`: either or
the bit in, or and with the inverted mask `0xff - flagbyte[flag]`. -/
def flagSet (p : Int) (mask : Int) (value : Bool) : Int :=
  if value then pyOr p mask else pyAnd p (0xff - mask)

/-- `Registers.set_flag(flag, value)`. -/
def Registers.set_flag (r : Registers) (flag : Flag) (value : Bool) : Registers :=
  { r with p := flagSet r.p (flagbyte flag) value }

/-- `Registers.ZN(value)`: `Z` from `value == 0`, `N` from the truth of
`value & 0x80`. -/
def Registers.ZN (r : Registers) (value : Int) : Registers :=
  (r.set_flag .Z (value == 0)).set_flag .N (pyTruthy (pyAnd value 0x80))

/-- `Registers.clear_flags`: only the unused bit stays on. -/
def Registers.clear_flags (r : Registers) : Registers :=
  { r with p := flagbyte .U }

/-! ## Processor state and helpers (src/pyemul/cpu.py, class Processor) -/

/-- The processor: register file, MMU, stack page and cycle counter. -/
structure Processor where
  r : Registers
  mmu : MMU
  stack_page : Int
  cycles : Int

/-- The `self.interrupts` dict keys. -/
inductive IntKind
  | ABORT | COP | IRQ | BRK | NMI | RESET
  deriving DecidableEq, Repr

/-- The `self.interrupts` dict: hard-coded vector addresses. -/
def interrupts : IntKind → Int
  | .ABORT => 0xfff8
  | .COP => 0xfff4
  | .IRQ => 0xfffe
  | .BRK => 0xfffe
  | .NMI => 0xfffa
  | .RESET => 0xfffc

/-- `Processor.read_byte`: read the byte at `pc`, then `pc += 1`. -/
def Processor.read_byte (c : Processor) : Except PyErr (Int × Processor) := do
  let value ← c.mmu.read c.r.pc
  pure ((value : Int), { c with r.pc := c.r.pc + 1 })

/-- `Processor.read_word`: low byte then high byte, little endian. -/
def Processor.read_word (c : Processor) : Except PyErr (Int × Processor) := do
  let (low_byte, c) ← c.read_byte
  let (high_byte, c) ← c.read_byte
  pure (pyShl high_byte 8 + low_byte, c)

/-- `Processor.stack_pull`: read `stack_page*0x100 + ((sp+1) & 0xff)`,
then `sp = (sp+1) & 0xff`. -/
def Processor.stack_pull (c : Processor) : Except PyErr (Int × Processor) := do
  let addr := c.stack_page * 0x100 + pyAnd (c.r.sp + 1) 0xff
  let value ← c.mmu.read addr
  pure ((value : Int), { c with r.sp := pyAnd (c.r.sp + 1) 0xff })

/-- `Processor.stack_pull_word`: two pulls, low byte first. -/
def Processor.stack_pull_word (c : Processor) : Except PyErr (Int × Processor) := do
  let (low, c) ← c.stack_pull
  let (high, c) ← c.stack_pull
  pure (low + pyShl high 8, c)

/-- `Processor.stack_push`: write at `stack_page*0x100 + ((sp+1) & 0xff)`,
then `sp = (sp-1) & 0xff`. -/
def Processor.stack_push (c : Processor) (value : Int) : Except PyErr Processor := do
  let addr := c.stack_page * 0x100 + pyAnd (c.r.sp + 1) 0xff
  let m ← c.mmu.write addr value
  pure { c with mmu := m, r.sp := pyAnd (c.r.sp - 1) 0xff }

/-- `Processor.stack_push_word`: high byte first, then low byte. -/
def Processor.stack_push_word (c : Processor) (value : Int) : Except PyErr Processor := do
  let c ← c.stack_push (pyShr value 8)
  c.stack_push (pyAnd value 0xff)

/-- `Processor.interrupt_address`: read the word at the vector, high
byte first. -/
def Processor.interrupt_address (c : Processor) (interrupt : IntKind) :
    Except PyErr Int := do
  let interrupt_addr := interrupts interrupt
  let high_byte ← c.mmu.read (interrupt_addr + 1)
  let low_byte ← c.mmu.read interrupt_addr
  pure (pyShl (high_byte : Int) 8 + (low_byte : Int))

/-- `Processor.from_BCD`: `(((value & 0xf0) // 0x10) * 10) + (value & 0xf)`. -/
def from_BCD (value : Int) : Int :=
  (Int.fdiv (pyAnd value 0xf0) 0x10) * 10 + pyAnd value 0xf

/-- `Processor.to_BCD`: `int(math.floor(value/10))*16 + (value % 10)`.
For the integer magnitudes that ever reach this helper the float
division is exact, so `math.floor(value/10)` is floor division and
`%` is the Python (floor) modulus. -/
def to_BCD (value : Int) : Int :=
  Int.fdiv value 10 * 16 + Int.fmod value 10

/-- `Processor.from_twos_comp`: `(value & 0x7f) - (value & 0x80)`. -/
def from_twos_comp (value : Int) : Int :=
  pyAnd value 0x7f - pyAnd value 0x80

/-! ## Addressing modes (src/pyemul/cpu.py) -/

/-- `Processor._load_im`: the next program byte is the value. -/
def Processor._load_im (c : Processor) : Except PyErr (Int × Processor) :=
  c.read_byte

/-- `Processor._zero_page`: the next program byte is the address. -/
def Processor._zero_page (c : Processor) : Except PyErr (Int × Processor) :=
  c.read_byte

/-- `Processor._zero_page_value`. -/
def Processor._zero_page_value (c : Processor) : Except PyErr (Int × Processor) := do
  let (addr, c) ← c._zero_page
  let value ← c.mmu.read addr
  pure ((value : Int), c)

/-- `Processor._zero_page_x`: `(zero_page_addr + x) & 0xff`. -/
def Processor._zero_page_x (c : Processor) : Except PyErr (Int × Processor) := do
  let (zero_page_addr, c) ← c.read_byte
  pure (pyAnd (zero_page_addr + c.r.x) 0xff, c)

/-- `Processor._zero_page_x_value`. -/
def Processor._zero_page_x_value (c : Processor) : Except PyErr (Int × Processor) := do
  let (addr, c) ← c._zero_page_x
  let value ← c.mmu.read addr
  pure ((value : Int), c)

/-- `Processor._zero_page_y`: `(zero_page_addr + y) & 0xff`. -/
def Processor._zero_page_y (c : Processor) : Except PyErr (Int × Processor) := do
  let (zero_page_addr, c) ← c.read_byte
  pure (pyAnd (zero_page_addr + c.r.y) 0xff, c)

/-- `Processor._zero_page_y_value`. -/
def Processor._zero_page_y_value (c : Processor) : Except PyErr (Int × Processor) := do
  let (addr, c) ← c._zero_page_y
  let value ← c.mmu.read addr
  pure ((value : Int), c)

/-- `Processor._load_addr`: a full 16-bit address. -/
def Processor._load_addr (c : Processor) : Except PyErr (Int × Processor) :=
  c.read_word

/-- `Processor._load_addr_value`. -/
def Processor._load_addr_value (c : Processor) : Except PyErr (Int × Processor) := do
  let (addr, c) ← c._load_addr
  let value ← c.mmu.read addr
  pure ((value : Int), c)

/-- `Processor._load_addr_x`: `final = (addr + x) & 0xffff`, and one
extra cycle when `math.floor(addr/0xff) != math.floor(final_addr/0xff)`
(note the divisor 0xff; the float division is exact enough that the
floor equals integer floor division). -/
def Processor._load_addr_x (c : Processor) : Except PyErr (Int × Processor) := do
  let (addr, c) ← c.read_word
  let offset := c.r.x
  let final_addr := pyAnd (addr + offset) 0xffff
  let c :=
    if Int.fdiv addr 0xff ≠ Int.fdiv final_addr 0xff then
      { c with cycles := c.cycles + 1 }
    else c
  pure (final_addr, c)

/-- `Processor._load_addr_x_value`. -/
def Processor._load_addr_x_value (c : Processor) : Except PyErr (Int × Processor) := do
  let (addr, c) ← c._load_addr_x
  let value ← c.mmu.read addr
  pure ((value : Int), c)

/-- `Processor._load_addr_y`: identical to `_load_addr_x` in the source,
including `offset = self.r.x` (the x register, not y). -/
def Processor._load_addr_y (c : Processor) : Except PyErr (Int × Processor) := do
  let (addr, c) ← c.read_word
  let offset := c.r.x
  let final_addr := pyAnd (addr + offset) 0xffff
  let c :=
    if Int.fdiv addr 0xff ≠ Int.fdiv final_addr 0xff then
      { c with cycles := c.cycles + 1 }
    else c
  pure (final_addr, c)

/-- `Processor._load_addr_y_value`. -/
def Processor._load_addr_y_value (c : Processor) : Except PyErr (Int × Processor) := do
  let (addr, c) ← c._load_addr_y
  let value ← c.mmu.read addr
  pure ((value : Int), c)

/-- `Processor._load_ix`: zero-page pointer at `(byte + x) & 0xff`,
high byte read first from `(intermed+1) & 0xff`. -/
def Processor._load_ix (c : Processor) : Except PyErr (Int × Processor) := do
  let (b, c) ← c.read_byte
  let intermed := pyAnd (b + c.r.x) 0xff
  let high_byte ← c.mmu.read (pyAnd (intermed + 1) 0xff)
  let low_byte ← c.mmu.read intermed
  pure (pyAnd (pyShl (high_byte : Int) 8 + (low_byte : Int)) 0xffff, c)

/-- `Processor._load_ix_value`. -/
def Processor._load_ix_value (c : Processor) : Except PyErr (Int × Processor) := do
  let (addr, c) ← c._load_ix
  let value ← c.mmu.read addr
  pure ((value : Int), c)

/-- `Processor._load_iy`: pointer at the zero-page byte (the high byte
is read from the unwrapped address `intermed+1` and the mask 0xff is
applied to the value read, as in the source); adds the page-cross cycle
for `addr + y` but returns `addr` itself. -/
def Processor._load_iy (c : Processor) : Except PyErr (Int × Processor) := do
  let (intermed, c) ← c.read_byte
  let high_raw ← c.mmu.read (intermed + 1)
  let high_byte := pyAnd (high_raw : Int) 0xff
  let low_byte ← c.mmu.read intermed
  let addr := pyShl high_byte 8 + (low_byte : Int)
  let final_addr := addr + c.r.y
  let c :=
    if Int.fdiv addr 0xff ≠ Int.fdiv final_addr 0xff then
      { c with cycles := c.cycles + 1 }
    else c
  pure (addr, c)

/-- `Processor._load_iy_value`. -/
def Processor._load_iy_value (c : Processor) : Except PyErr (Int × Processor) := do
  let (addr, c) ← c._load_iy
  let value ← c.mmu.read addr
  pure ((value : Int), c)

/-- `Processor._load_indirect`: the JMP page-wrap quirk; the high
pointer byte is read first. -/
def Processor._load_indirect (c : Processor) : Except PyErr (Int × Processor) := do
  let (addr1, c) ← c.read_word
  let addr2 := if pyAnd addr1 0xff == 0xff then addr1 - 0xff else addr1 + 1
  let high ← c.mmu.read addr2
  let low ← c.mmu.read addr1
  pure (pyAnd (pyShl (high : Int) 8 + (low : Int)) 0xffff, c)

/-- The callable addressing modes appearing in the opcode table. -/
inductive AddrMode
  | load_im
  | zero_page
  | zero_page_value
  | zero_page_x
  | zero_page_x_value
  | zero_page_y
  | zero_page_y_value
  | load_addr
  | load_addr_value
  | load_addr_x
  | load_addr_x_value
  | load_addr_y
  | load_addr_y_value
  | load_ix
  | load_ix_value
  | load_iy
  | load_iy_value
  | load_indirect
  | implied
  deriving DecidableEq, Repr

/-- Dispatch a callable addressing mode; `_implied` returns `None`. -/
def Processor.runMode (c : Processor) : AddrMode → Except PyErr (Option Int × Processor)
  | .load_im => do let (v, c) ← c._load_im; pure (some v, c)
  | .zero_page => do let (v, c) ← c._zero_page; pure (some v, c)
  | .zero_page_value => do let (v, c) ← c._zero_page_value; pure (some v, c)
  | .zero_page_x => do let (v, c) ← c._zero_page_x; pure (some v, c)
  | .zero_page_x_value => do let (v, c) ← c._zero_page_x_value; pure (some v, c)
  | .zero_page_y => do let (v, c) ← c._zero_page_y; pure (some v, c)
  | .zero_page_y_value => do let (v, c) ← c._zero_page_y_value; pure (some v, c)
  | .load_addr => do let (v, c) ← c._load_addr; pure (some v, c)
  | .load_addr_value => do let (v, c) ← c._load_addr_value; pure (some v, c)
  | .load_addr_x => do let (v, c) ← c._load_addr_x; pure (some v, c)
  | .load_addr_x_value => do let (v, c) ← c._load_addr_x_value; pure (some v, c)
  | .load_addr_y => do let (v, c) ← c._load_addr_y; pure (some v, c)
  | .load_addr_y_value => do let (v, c) ← c._load_addr_y_value; pure (some v, c)
  | .load_ix => do let (v, c) ← c._load_ix; pure (some v, c)
  | .load_ix_value => do let (v, c) ← c._load_ix_value; pure (some v, c)
  | .load_iy => do let (v, c) ← c._load_iy; pure (some v, c)
  | .load_iy_value => do let (v, c) ← c._load_iy_value; pure (some v, c)
  | .load_indirect => do let (v, c) ← c._load_indirect; pure (some v, c)
  | .implied => pure (none, c)

/-! ## Instructions (src/pyemul/cpu.py, operation methods) -/

/-- Register-name strings used by `TRA` and `getattr`/`setattr`. -/
inductive RegName
  | a | x | y | s
  deriving DecidableEq, Repr

/-- `getattr(self.r, name)`: raises AttributeError for `s` until `TXS`
has created that attribute via `setattr`. -/
def Registers.getattr (r : Registers) : RegName → Except PyErr Int
  | .a => .ok r.a
  | .x => .ok r.x
  | .y => .ok r.y
  | .s => match r.s_attr with
          | some v => .ok v
          | none => .error .attributeError

/-- `setattr(self.r, name, v)`; for `s` this creates a fresh attribute
and leaves `sp` untouched. -/
def Registers.setattr (r : Registers) (name : RegName) (v : Int) : Registers :=
  match name with
  | .a => { r with a := v }
  | .x => { r with x := v }
  | .y => { r with y := v }
  | .s => { r with s_attr := some v }

/-- `Processor.ADC(value2)`.  In decimal mode the reassigned BCD-decoded
`value1`/`value2` and the decimal `result` feed the final overflow-flag
computation, exactly as the rebinding in the source does. -/
def Processor.ADC (c : Processor) (value2 : Int) : Processor :=
  let value1 := c.r.a
  if c.r.get_flag .D then
    let value1 := from_BCD value1
    let value2 := from_BCD value2
    let result := value1 + value2 + boolInt (c.r.get_flag .C)
    let r := { c.r with a := to_BCD result }
    let r := r.set_flag .C (result > 99)
    let r := r.ZN r.a
    let r := r.set_flag .V
      (pyTruthy (pyAnd (pyAnd (pyNot (pyXor value1 value2)) (pyXor value1 result)) 0x80))
    { c with r := r }
  else
    let result := value1 + value2 + boolInt (c.r.get_flag .C)
    let r := { c.r with a := pyAnd result 0xff }
    let r := r.set_flag .C (result > 0xff)
    let r := r.ZN r.a
    let r := r.set_flag .V
      (pyTruthy (pyAnd (pyAnd (pyNot (pyXor value1 value2)) (pyXor value1 result)) 0x80))
    { c with r := r }

/-- `Processor.AND(value2)`. -/
def Processor.AND (c : Processor) (value2 : Int) : Processor :=
  let calculation := pyAnd c.r.a value2
  let r := { c.r with a := pyAnd calculation 0xff }
  { c with r := r.ZN r.a }

/-- `Processor.ASL(addr)` acting on the accumulator. -/
def Processor.ASL_acc (c : Processor) : Processor :=
  let value := pyShl c.r.a 1
  let r := { c.r with a := pyAnd value 0xff }
  let r := r.set_flag .C (value > 0xff)
  { c with r := r.ZN (pyAnd value 0xff) }

/-- `Processor.ASL(addr)` acting on memory; note the write stores the
unmasked shifted value. -/
def Processor.ASL_mem (c : Processor) (addr : Int) : Except PyErr Processor := do
  let v ← c.mmu.read addr
  let value := pyShl (v : Int) 1
  let m ← c.mmu.write addr value
  let c := { c with mmu := m }
  let r := c.r.set_flag .C (value > 0xff)
  pure { c with r := r.ZN (pyAnd value 0xff) }

/-- `Processor.BRA(value2)`: all conditional branches.  The relative
byte is always consumed; a taken branch adds the signed offset to `pc`
and charges 1 cycle for a same-page target, 2 for a different page (the
page comparison floor-divides by 0xff as in `_load_addr_x`). -/
def Processor.BRA (c : Processor) (flag : Flag) (state : Bool) :
    Except PyErr Processor := do
  let (jump, c) ← c._load_im
  if c.r.get_flag flag == state then
    let current_pc := c.r.pc
    let c := { c with r.pc := c.r.pc + from_twos_comp jump }
    if Int.fdiv current_pc 0xff == Int.fdiv c.r.pc 0xff then
      pure { c with cycles := c.cycles + 1 }
    else
      pure { c with cycles := c.cycles + 2 }
  else
    pure c

/-- `Processor.BIT(value2)`. -/
def Processor.BIT (c : Processor) (value2 : Int) : Processor :=
  let r := c.r.set_flag .Z (pyAnd c.r.a value2 == 0)
  let r := r.set_flag .N (pyTruthy (pyAnd value2 0x80))
  { c with r := r.set_flag .V (pyTruthy (pyAnd value2 0x40)) }

/-- `Processor.BRK(_)`. -/
def Processor.BRK (c : Processor) : Except PyErr Processor := do
  let c := { c with r := c.r.set_flag .B true }
  let c ← c.stack_push_word (c.r.pc + 1)
  let c ← c.stack_push c.r.p
  let c := { c with r := c.r.set_flag .I true }
  let addr ← c.interrupt_address .BRK
  pure { c with r.pc := addr }

/-- `Processor.CLR(flag)`. -/
def Processor.CLR (c : Processor) (flag : Flag) : Processor :=
  { c with r := c.r.set_flag flag false }

/-- The private `Processor.__compare` helper shared by CMP/CPX/CPY. -/
def Processor.compare (c : Processor) (register value : Int) : Processor :=
  let result := pyAnd (register - value) 0xff
  let r := c.r.set_flag .Z (result == 0)
  let r := r.set_flag .C (value ≤ register)
  { c with r := r.set_flag .N (pyTruthy (pyAnd result 0x80)) }

/-- `Processor.CMP(value2)`. -/
def Processor.CMP (c : Processor) (value2 : Int) : Processor :=
  c.compare c.r.a value2

/-- `Processor.CPX(value2)`. -/
def Processor.CPX (c : Processor) (value2 : Int) : Processor :=
  c.compare c.r.x value2

/-- `Processor.CPY(value2)`. -/
def Processor.CPY (c : Processor) (value2 : Int) : Processor :=
  c.compare c.r.y value2

/-- `Processor.DEC(addr)`: reads the old byte, then calls
`self.mmu.write(value & 0xff)` with the address argument missing, so
Python raises TypeError before anything is written. -/
def Processor.DEC (c : Processor) (addr : Int) : Except PyErr Processor := do
  let v ← c.mmu.read addr
  let _value := (v : Int) - 1
  .error .typeError

/-- `Processor.DEX(_)`. -/
def Processor.DEX (c : Processor) : Processor :=
  let r := { c.r with x := pyAnd (c.r.x - 1) 0xff }
  { c with r := r.ZN r.x }

/-- `Processor.DEY(_)`. -/
def Processor.DEY (c : Processor) : Processor :=
  let r := { c.r with y := pyAnd (c.r.y - 1) 0xff }
  { c with r := r.ZN r.y }

/-- `Processor.EOR(value2)`. -/
def Processor.EOR (c : Processor) (value2 : Int) : Processor :=
  let r := { c.r with a := pyXor c.r.a value2 }
  { c with r := r.ZN r.a }

/-- `Processor.INC(addr)`: like `DEC`, the write call omits the address
argument and raises TypeError. -/
def Processor.INC (c : Processor) (addr : Int) : Except PyErr Processor := do
  let v ← c.mmu.read addr
  let _value := (v : Int) + 1
  .error .typeError

/-- `Processor.INX(_)`. -/
def Processor.INX (c : Processor) : Processor :=
  let r := { c.r with x := pyAnd (c.r.x + 1) 0xff }
  { c with r := r.ZN r.x }

/-- `Processor.INY(_)`. -/
def Processor.INY (c : Processor) : Processor :=
  let r := { c.r with y := pyAnd (c.r.y + 1) 0xff }
  { c with r := r.ZN r.y }

/-- `Processor.JMP(addr)`. -/
def Processor.JMP (c : Processor) (addr : Int) : Processor :=
  { c with r.pc := addr }

/-- `Processor.JSR(addr)`. -/
def Processor.JSR (c : Processor) (addr : Int) : Except PyErr Processor := do
  let c ← c.stack_push_word (c.r.pc - 1)
  pure { c with r.pc := addr }

/-- `Processor.LDA(value2)`. -/
def Processor.LDA (c : Processor) (value2 : Int) : Processor :=
  let r := { c.r with a := value2 }
  { c with r := r.ZN r.a }

/-- `Processor.LDX(value2)`. -/
def Processor.LDX (c : Processor) (value2 : Int) : Processor :=
  let r := { c.r with x := value2 }
  { c with r := r.ZN r.x }

/-- `Processor.LDY(value2)`. -/
def Processor.LDY (c : Processor) (value2 : Int) : Processor :=
  let r := { c.r with y := value2 }
  { c with r := r.ZN r.y }

/-- `Processor.LSR(addr)` acting on the accumulator. -/
def Processor.LSR_acc (c : Processor) : Processor :=
  let r := c.r.set_flag .C (pyTruthy (pyAnd c.r.a 0x01))
  let value := pyShr r.a 1
  let r := { r with a := value }
  { c with r := r.ZN value }

/-- `Processor.LSR(addr)` acting on memory: after setting the carry the
source calls `self.mmu.write(value)` without the address, raising
TypeError before the shifted value is stored. -/
def Processor.LSR_mem (c : Processor) (addr : Int) : Except PyErr Processor := do
  let v ← c.mmu.read addr
  let _r := c.r.set_flag .C (pyTruthy (pyAnd (v : Int) 0x01))
  let _value := pyShr (v : Int) 1
  .error .typeError

/-- `Processor.NOP(_)`. -/
def Processor.NOP (c : Processor) : Processor := c

/-- `Processor.ORA(value2)`. -/
def Processor.ORA (c : Processor) (value2 : Int) : Processor :=
  let r := { c.r with a := pyOr c.r.a value2 }
  { c with r := r.ZN r.a }

/-- `Processor.PHS(value2)`. -/
def Processor.PHS (c : Processor) (value2 : Int) : Except PyErr Processor :=
  c.stack_push value2

/-- The register selector passed to `PLS` (the string `a` or `p`). -/
inductive PullReg
  | a | p
  deriving DecidableEq, Repr

/-- `Processor.PLS(reg)`: pull into the accumulator (updating ZN) or
into `p` with the unused bit forced on. -/
def Processor.PLS (c : Processor) (reg : PullReg) : Except PyErr Processor := do
  let (value, c) ← c.stack_pull
  match reg with
  | .a =>
      let r := { c.r with a := value }
      pure { c with r := r.ZN value }
  | .p =>
      pure { c with r.p := pyOr value 0b00100000 }

/-- `Processor.ROL(addr)` acting on the accumulator. -/
def Processor.ROL_acc (c : Processor) : Processor :=
  let original := c.r.a
  let new := pyShl original 1 + boolInt (c.r.get_flag .C)
  let r := { c.r with a := pyAnd new 0xff }
  let r := r.set_flag .C (pyTruthy (pyAnd original 0x80))
  { c with r := r.ZN (pyAnd new 0xff) }

/-- `Processor.ROL(addr)` acting on memory. -/
def Processor.ROL_mem (c : Processor) (addr : Int) : Except PyErr Processor := do
  let original ← c.mmu.read addr
  let new := pyShl (original : Int) 1 + boolInt (c.r.get_flag .C)
  let m ← c.mmu.write addr (pyAnd new 0xff)
  let c := { c with mmu := m }
  let r := c.r.set_flag .C (pyTruthy (pyAnd (original : Int) 0x80))
  pure { c with r := r.ZN (pyAnd new 0xff) }

/-- `Processor.ROR(addr)` acting on the accumulator. -/
def Processor.ROR_acc (c : Processor) : Processor :=
  let original := c.r.a
  let new := pyShr original 1 + boolInt (c.r.get_flag .C) * 0x80
  let r := { c.r with a := pyAnd new 0xff }
  let r := r.set_flag .C (pyTruthy (pyAnd original 0x01))
  { c with r := r.ZN (pyAnd new 0xff) }

/-- `Processor.ROR(addr)` acting on memory. -/
def Processor.ROR_mem (c : Processor) (addr : Int) : Except PyErr Processor := do
  let original ← c.mmu.read addr
  let new := pyShr (original : Int) 1 + boolInt (c.r.get_flag .C) * 0x80
  let m ← c.mmu.write addr (pyAnd new 0xff)
  let c := { c with mmu := m }
  let r := c.r.set_flag .C (pyTruthy (pyAnd (original : Int) 0x01))
  pure { c with r := r.ZN (pyAnd new 0xff) }

/-- `Processor.RTI(_)`: the pulled status byte is assigned to `p`
directly (no forcing of the unused bit), then `pc` is pulled. -/
def Processor.RTI (c : Processor) : Except PyErr Processor := do
  let (p, c) ← c.stack_pull
  let c := { c with r.p := p }
  let (addr, c) ← c.stack_pull_word
  pure { c with r.pc := addr }

/-- `Processor.RTS(_)`. -/
def Processor.RTS (c : Processor) : Except PyErr Processor := do
  let (w, c) ← c.stack_pull_word
  pure { c with r.pc := pyAnd (w + 1) 0xffff }

/-- `Processor.SBC(value2)`. -/
def Processor.SBC (c : Processor) (value2 : Int) : Processor :=
  let value1 := c.r.a
  if c.r.get_flag .D then
    let value1 := from_BCD value1
    let value2 := from_BCD value2
    let result := value1 - value2 - boolInt (!c.r.get_flag .C)
    let r := { c.r with a := to_BCD (Int.fmod result 100) }
    let r := r.set_flag .C (result ≥ 0)
    let r := r.set_flag .V
      (pyTruthy (pyAnd (pyAnd (pyXor value1 value2) (pyXor value1 result)) 0x80))
    { c with r := r.ZN r.a }
  else
    let result := value1 - value2 - boolInt (!c.r.get_flag .C)
    let r := { c.r with a := pyAnd result 0xff }
    let r := r.set_flag .C (result ≥ 0)
    let r := r.set_flag .V
      (pyTruthy (pyAnd (pyAnd (pyXor value1 value2) (pyXor value1 result)) 0x80))
    { c with r := r.ZN r.a }

/-- `Processor.SET(flag)`. -/
def Processor.SET (c : Processor) (flag : Flag) : Processor :=
  { c with r := c.r.set_flag flag true }

/-- `Processor.STA(addr)`. -/
def Processor.STA (c : Processor) (addr : Int) : Except PyErr Processor := do
  let m ← c.mmu.write addr c.r.a
  pure { c with mmu := m }

/-- `Processor.STX(addr)`. -/
def Processor.STX (c : Processor) (addr : Int) : Except PyErr Processor := do
  let m ← c.mmu.write addr c.r.x
  pure { c with mmu := m }

/-- `Processor.STY(addr)`. -/
def Processor.STY (c : Processor) (addr : Int) : Except PyErr Processor := do
  let m ← c.mmu.write addr c.r.y
  pure { c with mmu := m }

/-- `Processor.TRA(regs)`: transfer between registers named by strings,
updating ZN unless the destination is `s`. -/
def Processor.TRA (c : Processor) (source dest : RegName) : Except PyErr Processor := do
  let source_value ← c.r.getattr source
  let r := c.r.setattr dest source_value
  if dest ≠ .s then
    pure { c with r := r.ZN source_value }
  else
    pure { c with r := r }

/-! ## Opcode table and step (src/pyemul/cpu.py) -/

/-- The operation slot of an opcode entry (the bound method). -/
inductive Instr
  | ADC | AND | ASL | BRA | BIT | BRK | CLR | CMP | CPX | CPY
  | DEC | DEX | DEY | EOR | INC | INX | INY | JMP | JSR
  | LDA | LDX | LDY | LSR | NOP | ORA | PHS | PLS
  | ROL | ROR | RTI | RTS | SET | SBC | STA | STX | STY | TRA
  deriving DecidableEq, Repr

/-- The third slot of an opcode entry: either a callable addressing
mode, or a plain value (a string, tuple or int) passed through by the
`except TypeError` branch of `step`.  `PHA`/`PHP` store the values of
`self.r.a` and `self.r.p` captured when the table is built. -/
inductive Arg
  | mode (m : AddrMode)
  | accStr
  | pregStr
  | flag (f : Flag)
  | branch (f : Flag) (b : Bool)
  | transfer (src dst : RegName)
  | intval (n : Int)

/-- The argument value handed to the operation after the
`try/except TypeError` in `step`: a number from a callable mode, `None`
from `_implied`, or the table entry itself. -/
inductive Val
  | num (n : Int)
  | noneVal
  | accStr
  | pregStr
  | flag (f : Flag)
  | branch (f : Flag) (b : Bool)
  | transfer (src dst : RegName)

/-! The `self._ops` dict maps an opcode byte to the 4-tuple (name,
operation, argument, cycles).  `PHA` (0x48) and `PHP` (0x08) capture
the values of `self.r.a = 0` and `self.r.p = 0b00100100` as they are at
construction time.  The dict is given in source order, split into
slices so that the list literals stay small. -/

/-- Slice 0 of the opcode dict (split into slices so that the list
literals stay small). -/
def opsPart0 : List (Int × (String × Instr × Arg × Int)) :=
  [(0x69, ("ADC Im", .ADC, .mode .load_im, 2)),
   (0x65, ("ADC Z", .ADC, .mode .zero_page_value, 3)),
   (0x75, ("ADC Z,x", .ADC, .mode .zero_page_x_value, 4)),
   (0x6d, ("ADC A", .ADC, .mode .load_addr_value, 4)),
   (0x7d, ("ADC A,x", .ADC, .mode .load_addr_x_value, 4)),
   (0x79, ("ADC A,y", .ADC, .mode .load_addr_y_value, 4)),
   (0x61, ("ADC I,x", .ADC, .mode .load_ix_value, 6)),
   (0x71, ("ADC I,y", .ADC, .mode .load_iy_value, 5)),
   (0x29, ("AND Im", .AND, .mode .load_im, 2)),
   (0x25, ("AND Z", .AND, .mode .zero_page_value, 3)),
   (0x35, ("AND Z,x", .AND, .mode .zero_page_x_value, 4)),
   (0x2d, ("AND A", .AND, .mode .load_addr_value, 4)),
   (0x3d, ("AND A,x", .AND, .mode .load_addr_x_value, 4)),
   (0x39, ("AND A,y", .AND, .mode .load_addr_y_value, 4)),
   (0x21, ("AND I,x", .AND, .mode .load_ix_value, 6)),
   (0x31, ("AND I,y", .AND, .mode .load_iy_value, 5))]

/-- Slice 1 of the opcode dict (split into slices so that the list
literals stay small). -/
def opsPart1 : List (Int × (String × Instr × Arg × Int)) :=
  [(0x0a, ("ASL Acc", .ASL, .accStr, 2)),
   (0x06, ("ASL Z", .ASL, .mode .zero_page, 5)),
   (0x16, ("ASL Z,x", .ASL, .mode .zero_page_x, 6)),
   (0x0e, ("ASL A", .ASL, .mode .load_addr, 6)),
   (0x1e, ("ASL A,x", .ASL, .mode .load_addr_x, 7)),
   (0x10, ("BPL", .BRA, .branch .N false, 2)),
   (0x30, ("BMI", .BRA, .branch .N true, 2)),
   (0x50, ("BVC", .BRA, .branch .V false, 2)),
   (0x70, ("BVS", .BRA, .branch .V true, 2)),
   (0x90, ("BCC", .BRA, .branch .C false, 2)),
   (0xb0, ("BCS", .BRA, .branch .C true, 2)),
   (0xd0, ("BNE", .BRA, .branch .Z false, 2)),
   (0xf0, ("BEQ", .BRA, .branch .Z true, 2)),
   (0x24, ("BIT Z", .BIT, .mode .zero_page_value, 3)),
   (0x2c, ("BIT A", .BIT, .mode .load_addr_value, 4))]

/-- Slice 2 of the opcode dict (split into slices so that the list
literals stay small). -/
def opsPart2 : List (Int × (String × Instr × Arg × Int)) :=
  [(0x00, ("BRK", .BRK, .mode .implied, 7)),
   (0x18, ("CLC", .CLR, .flag .C, 2)),
   (0xd8, ("CLD", .CLR, .flag .D, 2)),
   (0x58, ("CLI", .CLR, .flag .I, 2)),
   (0xb8, ("CLV", .CLR, .flag .V, 2)),
   (0xc9, ("CMP Im", .CMP, .mode .load_im, 2)),
   (0xc5, ("CMP Z", .CMP, .mode .zero_page_value, 3)),
   (0xd5, ("CMP Z,x", .CMP, .mode .zero_page_x_value, 4)),
   (0xcd, ("CMP A", .CMP, .mode .load_addr_value, 4)),
   (0xdd, ("CMP A,x", .CMP, .mode .load_addr_x_value, 4)),
   (0xd9, ("CMP A,y", .CMP, .mode .load_addr_y_value, 4)),
   (0xc1, ("CMP I,x", .CMP, .mode .load_ix_value, 6)),
   (0xd1, ("CMP I,y", .CMP, .mode .load_iy_value, 5)),
   (0xe0, ("CPX Im", .CPX, .mode .load_im, 2)),
   (0xe4, ("CPX Z", .CPX, .mode .zero_page_value, 3))]

/-- Slice 3 of the opcode dict (split into slices so that the list
literals stay small). -/
def opsPart3 : List (Int × (String × Instr × Arg × Int)) :=
  [(0xec, ("CPX A", .CPX, .mode .load_addr_value, 4)),
   (0xc0, ("CPY Im", .CPY, .mode .load_im, 2)),
   (0xc4, ("CPY Z", .CPY, .mode .zero_page_value, 3)),
   (0xcc, ("CPY A", .CPY, .mode .load_addr_value, 4)),
   (0xc6, ("DEC Z", .DEC, .mode .zero_page, 5)),
   (0xd6, ("DEC Z,x", .DEC, .mode .zero_page_x, 6)),
   (0xce, ("DEC A", .DEC, .mode .load_addr, 6)),
   (0xde, ("DEC A,x", .DEC, .mode .load_addr_x, 7)),
   (0xca, ("DEX", .DEX, .mode .implied, 2)),
   (0x88, ("DEY", .DEY, .mode .implied, 2)),
   (0x49, ("EOR Im", .EOR, .mode .load_im, 2)),
   (0x45, ("EOR Z", .EOR, .mode .zero_page_value, 3)),
   (0x55, ("EOR Z,x", .EOR, .mode .zero_page_x_value, 4)),
   (0x4d, ("EOR A", .EOR, .mode .load_addr_value, 4)),
   (0x5d, ("EOR A,x", .EOR, .mode .load_addr_x_value, 4))]

/-- Slice 4 of the opcode dict (split into slices so that the list
literals stay small). -/
def opsPart4 : List (Int × (String × Instr × Arg × Int)) :=
  [(0x59, ("EOR A,y", .EOR, .mode .load_addr_y_value, 4)),
   (0x41, ("EOR I,x", .EOR, .mode .load_ix_value, 6)),
   (0x51, ("EOR I,y", .EOR, .mode .load_iy_value, 5)),
   (0xe6, ("INC Z", .INC, .mode .zero_page, 5)),
   (0xf6, ("INC Z,x", .INC, .mode .zero_page_x, 6)),
   (0xee, ("INC A", .INC, .mode .load_addr, 6)),
   (0xfe, ("INC A,x", .INC, .mode .load_addr_x, 7)),
   (0xe8, ("INX", .INX, .mode .implied, 2)),
   (0xc8, ("INY", .INY, .mode .implied, 2)),
   (0x4c, ("JMP A", .JMP, .mode .load_addr, 3)),
   (0x6c, ("JMP Ind", .JMP, .mode .load_indirect, 5)),
   (0x20, ("JSR A", .JSR, .mode .load_addr, 6)),
   (0xa9, ("LDA Im", .LDA, .mode .load_im, 2)),
   (0xa5, ("LDA Z", .LDA, .mode .zero_page_value, 3)),
   (0xb5, ("LDA Z,x", .LDA, .mode .zero_page_x_value, 4))]

/-- Slice 5 of the opcode dict (split into slices so that the list
literals stay small). -/
def opsPart5 : List (Int × (String × Instr × Arg × Int)) :=
  [(0xad, ("LDA A", .LDA, .mode .load_addr_value, 4)),
   (0xbd, ("LDA A,x", .LDA, .mode .load_addr_x_value, 4)),
   (0xb9, ("LDA A,y", .LDA, .mode .load_addr_y_value, 4)),
   (0xa1, ("LDA I,x", .LDA, .mode .load_ix_value, 6)),
   (0xb1, ("LDA I,y", .LDA, .mode .load_iy_value, 5)),
   (0xa2, ("LDX Im", .LDX, .mode .load_im, 2)),
   (0xa6, ("LDX Z", .LDX, .mode .zero_page_value, 3)),
   (0xb6, ("LDX Z,y", .LDX, .mode .zero_page_y_value, 4)),
   (0xae, ("LDX A", .LDX, .mode .load_addr_value, 4)),
   (0xbe, ("LDX A,y", .LDX, .mode .load_addr_y_value, 4)),
   (0xa0, ("LDY Im", .LDY, .mode .load_im, 2)),
   (0xa4, ("LDY Z", .LDY, .mode .zero_page_value, 3)),
   (0xb4, ("LDY Z,x", .LDY, .mode .zero_page_x_value, 4)),
   (0xac, ("LDY A", .LDY, .mode .load_addr_value, 4)),
   (0xbc, ("LDY A,x", .LDY, .mode .load_addr_x_value, 4))]

/-- Slice 6 of the opcode dict (split into slices so that the list
literals stay small). -/
def opsPart6 : List (Int × (String × Instr × Arg × Int)) :=
  [(0x4a, ("LSR Acc", .LSR, .accStr, 2)),
   (0x46, ("LSR Z", .LSR, .mode .zero_page, 5)),
   (0x56, ("LSR Z,x", .LSR, .mode .zero_page_x, 6)),
   (0x4e, ("LSR A", .LSR, .mode .load_addr, 6)),
   (0x5e, ("LSR A,x", .LSR, .mode .load_addr_x, 7)),
   (0xea, ("NOP", .NOP, .mode .implied, 2)),
   (0x09, ("ORA Im", .ORA, .mode .load_im, 2)),
   (0x05, ("ORA Z", .ORA, .mode .zero_page_value, 3)),
   (0x15, ("ORA Z,x", .ORA, .mode .zero_page_x_value, 4)),
   (0x0d, ("ORA A", .ORA, .mode .load_addr_value, 4)),
   (0x1d, ("ORA A,x", .ORA, .mode .load_addr_x_value, 4)),
   (0x19, ("ORA A,y", .ORA, .mode .load_addr_y_value, 4)),
   (0x01, ("ORA I,x", .ORA, .mode .load_ix_value, 6)),
   (0x11, ("ORA I,y", .ORA, .mode .load_iy_value, 5)),
   (0x48, ("PHA", .PHS, .intval 0, 3))]

/-- Slice 7 of the opcode dict (split into slices so that the list
literals stay small). -/
def opsPart7 : List (Int × (String × Instr × Arg × Int)) :=
  [(0x08, ("PHP", .PHS, .intval 0b00100100, 3)),
   (0x68, ("PLA", .PLS, .accStr, 4)),
   (0x28, ("PLP", .PLS, .pregStr, 4)),
   (0x2a, ("ROL Im", .ROL, .accStr, 2)),
   (0x26, ("ROL Z", .ROL, .mode .zero_page, 5)),
   (0x36, ("ROL Z,x", .ROL, .mode .zero_page_x, 6)),
   (0x2e, ("ROL A", .ROL, .mode .load_addr, 6)),
   (0x3e, ("ROL A,x", .ROL, .mode .load_addr_x, 7)),
   (0x6a, ("ROR Im", .ROR, .accStr, 2)),
   (0x66, ("ROR Z", .ROR, .mode .zero_page, 5)),
   (0x76, ("ROR Z,x", .ROR, .mode .zero_page_x, 6)),
   (0x6e, ("ROR A", .ROR, .mode .load_addr, 6)),
   (0x7e, ("ROR A,x", .ROR, .mode .load_addr_x, 7)),
   (0x40, ("RTI", .RTI, .mode .implied, 6)),
   (0x60, ("RTS", .RTS, .mode .implied, 6))]

/-- Slice 8 of the opcode dict (split into slices so that the list
literals stay small). -/
def opsPart8 : List (Int × (String × Instr × Arg × Int)) :=
  [(0x38, ("SEC", .SET, .flag .C, 2)),
   (0xf8, ("SED", .SET, .flag .D, 2)),
   (0x78, ("SEI", .SET, .flag .I, 2)),
   (0xe9, ("SBC Im", .SBC, .mode .load_im, 2)),
   (0xe5, ("SBC Z", .SBC, .mode .zero_page_value, 3)),
   (0xf5, ("SBC Z,x", .SBC, .mode .zero_page_x_value, 4)),
   (0xed, ("SBC A", .SBC, .mode .load_addr_value, 4)),
   (0xfd, ("SBC A,x", .SBC, .mode .load_addr_x_value, 4)),
   (0xf9, ("SBC A,y", .SBC, .mode .load_addr_y_value, 4)),
   (0xe1, ("SBC I,x", .SBC, .mode .load_ix_value, 6)),
   (0xf1, ("SBC I,y", .SBC, .mode .load_iy_value, 5)),
   (0x85, ("STA Z", .STA, .mode .zero_page, 3)),
   (0x95, ("STA Z,x", .STA, .mode .zero_page_x, 4)),
   (0x8d, ("STA A", .STA, .mode .load_addr, 4)),
   (0x9d, ("STA A,x", .STA, .mode .load_addr_x, 5))]

/-- Slice 9 of the opcode dict (split into slices so that the list
literals stay small). -/
def opsPart9 : List (Int × (String × Instr × Arg × Int)) :=
  [(0x99, ("STA A,y", .STA, .mode .load_addr_y, 5)),
   (0x81, ("STA I,x", .STA, .mode .load_ix, 6)),
   (0x91, ("STA I,y", .STA, .mode .load_iy, 6)),
   (0x86, ("STX Z", .STX, .mode .zero_page, 3)),
   (0x96, ("STX, Z,y", .STX, .mode .zero_page_y, 4)),
   (0x8e, ("STX A", .STX, .mode .load_addr, 4)),
   (0x84, ("STY Z", .STY, .mode .zero_page, 3)),
   (0x94, ("STY Z,x", .STY, .mode .zero_page_x, 4)),
   (0x8c, ("STY A", .STY, .mode .load_addr, 4)),
   (0xaa, ("TAX", .TRA, .transfer .a .x, 2)),
   (0x8a, ("TXA", .TRA, .transfer .x .a, 2)),
   (0xa8, ("TAY", .TRA, .transfer .a .y, 2)),
   (0x98, ("TYA", .TRA, .transfer .y .a, 2)),
   (0x9a, ("TXS", .TRA, .transfer .x .s, 2)),
   (0xba, ("TSX", .TRA, .transfer .s .a, 2))]

/-- The full opcode dict as an association list. -/
def opsTable : List (Int × (String × Instr × Arg × Int)) :=
  opsPart0 ++ opsPart1 ++ opsPart2 ++ opsPart3 ++ opsPart4 ++ opsPart5 ++ opsPart6 ++ opsPart7 ++ opsPart8 ++ opsPart9

/-- The `try: argument() except TypeError: argument` step: callable
modes run, all other table entries pass through as values. -/
def Processor.resolveArg (c : Processor) : Arg → Except PyErr (Val × Processor)
  | .mode m => do
      let (v?, c) ← c.runMode m
      match v? with
      | some v => pure (.num v, c)
      | none => pure (.noneVal, c)
  | .accStr => pure (.accStr, c)
  | .pregStr => pure (.pregStr, c)
  | .flag f => pure (.flag f, c)
  | .branch f b => pure (.branch f b, c)
  | .transfer src dst => pure (.transfer src dst, c)
  | .intval n => pure (.num n, c)

/-- Dispatch `instruction(additional_value)`.  Shape mismatches between
an operation and its argument cannot arise from the table; they are
mapped to TypeError, which is what the Python call would raise. -/
def Processor.execInstr (c : Processor) : Instr → Val → Except PyErr Processor
  | .ADC, .num v => pure (c.ADC v)
  | .AND, .num v => pure (c.AND v)
  | .ASL, .accStr => pure c.ASL_acc
  | .ASL, .num addr => c.ASL_mem addr
  | .BRA, .branch f b => c.BRA f b
  | .BIT, .num v => pure (c.BIT v)
  | .BRK, .noneVal => c.BRK
  | .CLR, .flag f => pure (c.CLR f)
  | .CMP, .num v => pure (c.CMP v)
  | .CPX, .num v => pure (c.CPX v)
  | .CPY, .num v => pure (c.CPY v)
  | .DEC, .num addr => c.DEC addr
  | .DEX, .noneVal => pure c.DEX
  | .DEY, .noneVal => pure c.DEY
  | .EOR, .num v => pure (c.EOR v)
  | .INC, .num addr => c.INC addr
  | .INX, .noneVal => pure c.INX
  | .INY, .noneVal => pure c.INY
  | .JMP, .num addr => pure (c.JMP addr)
  | .JSR, .num addr => c.JSR addr
  | .LDA, .num v => pure (c.LDA v)
  | .LDX, .num v => pure (c.LDX v)
  | .LDY, .num v => pure (c.LDY v)
  | .LSR, .accStr => pure c.LSR_acc
  | .LSR, .num addr => c.LSR_mem addr
  | .NOP, .noneVal => pure c.NOP
  | .ORA, .num v => pure (c.ORA v)
  | .PHS, .num v => c.PHS v
  | .PLS, .accStr => c.PLS .a
  | .PLS, .pregStr => c.PLS .p
  | .ROL, .accStr => pure c.ROL_acc
  | .ROL, .num addr => c.ROL_mem addr
  | .ROR, .accStr => pure c.ROR_acc
  | .ROR, .num addr => c.ROR_mem addr
  | .RTI, .noneVal => c.RTI
  | .RTS, .noneVal => c.RTS
  | .SET, .flag f => pure (c.SET f)
  | .SBC, .num v => pure (c.SBC v)
  | .STA, .num addr => c.STA addr
  | .STX, .num addr => c.STX addr
  | .STY, .num addr => c.STY addr
  | .TRA, .transfer src dst => c.TRA src dst
  | _, _ => .error .typeError

/-- `Processor.step`: fetch the opcode byte, look it up in `self._ops`
(a missing key raises KeyError), resolve the argument, execute the
operation, then add the base cycle count.  The `print` call is
ignored. -/
def Processor.step (c : Processor) : Except PyErr Processor := do
  let (opcode, c) ← c.read_byte
  match List.lookup opcode opsTable with
  | none => .error .keyError
  | some (_, instruction, argument, cycles) => do
      let (additional_value, c) ← c.resolveArg argument
      let c ← c.execInstr instruction additional_value
      pure { c with cycles := c.cycles + cycles }

/-- `Processor.__init__`: 7 power-up cycles; with an explicit program
counter the registers are simply reset to it, otherwise the reset
vector at $FFFC/$FFFD is read (two more cycles) and becomes `pc`. -/
def Processor.new (memory_mgt_unit : MMU) (program_counter : Option Int := none)
    (stack_page : Int := 0x1) : Except PyErr Processor := do
  let c : Processor :=
    { r := Registers.reset 0, mmu := memory_mgt_unit,
      stack_page := stack_page, cycles := 7 }
  match program_counter with
  | some pc => pure { c with r := Registers.reset pc }
  | none => do
      let c := { c with r := Registers.reset (interrupts .RESET) }
      let (low_addr, c) ← c.read_byte
      let (high_addr, c) ← c.read_byte
      let addr := pyShl high_addr 8 + low_addr
      let c := { c with cycles := c.cycles + 2 }
      pure { c with r.pc := addr }

/-! ## Shared concrete states for the claim theorems -/

/-- A freshly constructed MMU with no blocks: both backing arrays are
pre-zeroed. -/
def mmu0 : MMU :=
  { memory := fun _ => 0, read_only_mask := fun _ => false, blocks := [] }

/-- A processor over `mmu0` with freshly reset registers (`SP = 0xff`,
`P = 0b00100100`) and the default stack page. -/
def proc0 (pc : Int) : Processor :=
  { r := Registers.reset pc, mmu := mmu0, stack_page := 0x1, cycles := 7 }

/-! ## C7 -/

/-- C7: the claim says `MMU.read` succeeds for every address in
0..=65535 and a fresh MMU reads 0 everywhere, including $FFFF.  The
code allocates only `0xffff` bytes, so on a freshly constructed MMU the
reset-vector byte at $FFFC does read 0 but reading $FFFF raises
IndexError: the code is one byte short of its documented full 16-bit
space (and `interrupt_address` for IRQ/BRK itself reads $FFFF). -/
theorem C7_fresh_mmu_read_ffff :
    (MMU.new []).map (fun m => (m.read 0xfffc, m.read 0xffff)) =
      .ok (.ok 0, .error .indexError) := rfl

/-! ## C1 -/

/-- C1: the claim says `push(b); pull()` returns `b` and restores `SP`.
With `SP = 0xff` on zeroed memory, pushing `0x42` writes it at
$0100 (`stack_page*0x100 + ((SP+1) & 0xff)`), but the following pull
reads $01FF, returning the stale byte 0, not `0x42`; `SP` does return
to `0xff`.  So the round trip restores `SP` but does not return the
pushed byte. -/
theorem C1_push_pull_loses_byte :
    (((proc0 0).stack_push 0x42).bind Processor.stack_pull).map
        (fun vc => (vc.1, vc.2.r.sp)) = .ok (0, 0xff) ∧ (0 : Int) ≠ 0x42 :=
  ⟨rfl, by decide⟩

/-! ## C2 -/

/-- C2: the claim says an opcode absent from the table makes `step()`
fail with `InvalidInstructionError`.  No such class exists anywhere in
the code (tests/test_cpu.py imports it from pyemul.cpu and that import
fails); the dict lookup `self._ops[opcode]` raises a plain KeyError.
Here the byte at `PC` is $FF, which is not an opcode. -/
theorem C2_unknown_opcode_keyerror :
    (Processor.step
      { proc0 0x8000 with mmu := { mmu0 with memory := fun _ => 0xff } }) =
      .error .keyError := rfl

/-! ## C3 -/

/-- C3: the claim says bit 5 of `P` is 1 in every reachable state and
that `RTI` pops `P` with the unused bit still set.  Construct an MMU
whose ROM holds a single RTI opcode ($40) at $8000, build the processor
there, and step once: `RTI` assigns the popped stack byte (0) directly
to `P`, so `P = 0` and the unused bit is clear, violating the
invariant.  (`PLP` by contrast forces the bit on; `RTI` does not.) -/
theorem C3_rti_drops_unused_bit :
    ((MMU.new [{ start_addr := 0x8000, length := 1, name := "ROM",
                 read_only := true, data := some [0x40] }]).bind (fun m =>
      (Processor.new m (some 0x8000)).bind Processor.step)).map
        (fun c => (c.r.p, c.r.get_flag .U)) = .ok (0, false) := rfl

/-! ## C6 -/

/-- C6: the claim says the Absolute,Y resolver adds the Y register.
With `X = 1`, `Y = 2` and the little-endian word $1000 at `PC`, the
resolver returns $1001 = base + X (the source reads
`offset = self.r.x`), not base + Y = $1002. -/
theorem C6_absolute_y_uses_x :
    (Processor._load_addr_y
      { proc0 0x200 with
        r := { Registers.reset 0x200 with x := 1, y := 2 },
        mmu := { mmu0 with
          memory := fun a => if a = 0x201 then 0x10 else 0 } }).map
        (fun vc => vc.1) = .ok 0x1001 ∧ (0x1001 : Int) ≠ 0x1000 + 2 :=
  ⟨rfl, by decide⟩

/-! ## C8 -/

/-- C8: the claim says memory INC/DEC write the adjusted byte back to
the same address and set ZN.  Both call `self.mmu.write(value & 0xff)`
with the address argument missing, so stepping `INC $0010` (opcode $EE)
or `DEC $0010` (opcode $CE) raises TypeError and never writes.  The
memory below holds `EE 10 00` at $0200 and `CE 10 00` at $0300. -/
theorem C8_inc_dec_raise_typeerror :
    (Processor.step
      { proc0 0x200 with mmu := { mmu0 with
          memory := fun a =>
            if a = 0x200 then 0xee else
            if a = 0x201 then 0x10 else
            if a = 0x300 then 0xce else
            if a = 0x301 then 0x10 else 0 } }) = .error .typeError ∧
    (Processor.step
      { proc0 0x300 with mmu := { mmu0 with
          memory := fun a =>
            if a = 0x200 then 0xee else
            if a = 0x201 then 0x10 else
            if a = 0x300 then 0xce else
            if a = 0x301 then 0x10 else 0 } }) = .error .typeError :=
  ⟨rfl, rfl⟩

/-! ## C10 -/

set_option maxRecDepth 4000 in
/-- C10: `from_BCD` and `to_BCD` are mutually inverse on their valid
ranges: decoding after encoding is the identity on 0..=99, and encoding
after decoding is the identity on bytes whose two nibbles are both at
most 9. -/
theorem C10_bcd_inverse :
    (∀ v : Nat, v < 100 → from_BCD (to_BCD (v : Int)) = (v : Int)) ∧
    (∀ b : Nat, b < 256 → b % 16 ≤ 9 → b / 16 ≤ 9 →
      to_BCD (from_BCD (b : Int)) = (b : Int)) := by
  constructor
  · decide
  · decide

/-- Witness for C10 at `v = 42` and `b = 0x42`. -/
theorem C10_bcd_inverse_witness :
    from_BCD (to_BCD 42) = 42 ∧ to_BCD (from_BCD 0x42) = 0x42 :=
  ⟨C10_bcd_inverse.1 42 (by decide),
   C10_bcd_inverse.2 0x42 (by decide) (by decide) (by decide)⟩

/-! ## C4 -/

/-- The only exception `arrIdx` raises is IndexError. -/
theorem arrIdx_error_eq {s : Int} {e : PyErr} (h : arrIdx s = .error e) :
    e = PyErr.indexError := by
  unfold arrIdx at h
  split at h
  · exact absurd h (by simp)
  · split at h
    · exact absurd h (by simp)
    · exact (Except.error.injEq _ _).mp h.symm

/-- Splitting an `Except` bind that produced an error. -/
theorem except_bind_error {α β : Type} {X : Except PyErr α}
    {f : α → Except PyErr β} {e : PyErr} (h : X.bind f = .error e) :
    X = .error e ∨ ∃ a, X = .ok a ∧ f a = .error e := by
  cases X with
  | error e2 => left; simpa [Except.bind] using h
  | ok a => right; exact ⟨a, rfl, by simpa [Except.bind] using h⟩

/-- `markReadOnly` never raises `MemoryRangeError`. -/
theorem markReadOnly_ne_mre (n : Nat) : ∀ (mask : Nat → Bool) (s : Int),
    markReadOnly mask s n ≠ Except.error PyErr.memoryRangeError := by
  induction n with
  | zero => intro mask s h; exact absurd h (by simp [markReadOnly])
  | succ k ih =>
      intro mask s h
      rw [markReadOnly] at h
      rcases except_bind_error h with h1 | ⟨i, _, h2⟩
      · exact absurd (arrIdx_error_eq h1) (by simp)
      · exact ih _ _ h2

/-- `copyData` never raises `MemoryRangeError`. -/
theorem copyData_ne_mre (n : Nat) : ∀ (mem : Nat → Nat) (data : List Nat)
    (s : Int) (off : Nat),
    copyData mem data s off n ≠ Except.error PyErr.memoryRangeError := by
  induction n with
  | zero => intro mem data s off h; exact absurd h (by simp [copyData])
  | succ k ih =>
      intro mem data s off h
      rw [copyData] at h
      rcases except_bind_error h with h1 | ⟨i, _, h2⟩
      · exact absurd (arrIdx_error_eq h1) (by simp)
      · rcases hget : data.get? off with _ | v
        · rw [hget] at h2; exact absurd ((Except.error.injEq _ _).mp h2.symm) (by simp)
        · rw [hget] at h2; exact ih _ _ _ _ h2

/-- C4 amended: `add_block` raises `MemoryRangeError` exactly when the
start or the end of the new region lies strictly inside the open
interval of an existing region.  (The source checks only the endpoints
of the new region, so a new region that strictly contains an existing
one, or coincides with it, is accepted; regions that merely share an
endpoint are accepted, as the claim states.) -/
theorem C4_overlap_iff (m : MMU) (s len : Int) (nm : String) (ro : Bool)
    (data : Option (List Nat)) :
    m.add_block s len nm ro data = .error .memoryRangeError ↔
    ∃ b ∈ m.blocks,
      (b.start < s ∧ s < b.start + b.length) ∨
      (b.start < s + len ∧ s + len < b.start + b.length) := by
  have hiff : (∃ b ∈ m.blocks,
      (b.start < s ∧ s < b.start + b.length) ∨
      (b.start < s + len ∧ s + len < b.start + b.length)) ↔
      m.blocks.any (fun block =>
        ((s > block.start) && (s < block.start + block.length)) ||
        ((s + len > block.start) && (s + len < block.start + block.length))) = true := by
    rw [List.any_eq_true]
    constructor
    · rintro ⟨b, hb, hcond⟩
      exact ⟨b, hb, by simpa [gt_iff_lt, Bool.or_eq_true, Bool.and_eq_true,
        decide_eq_true_eq] using hcond⟩
    · rintro ⟨b, hb, hcond⟩
      exact ⟨b, hb, by simpa [gt_iff_lt, Bool.or_eq_true, Bool.and_eq_true,
        decide_eq_true_eq] using hcond⟩
  rw [hiff]
  simp only [MMU.add_block]
  split
  · rename_i hany
    exact iff_of_true rfl hany
  · rename_i hany
    refine iff_of_false ?_ hany
    split
    · rename_i err hmask
      intro h
      injection h with h
      subst h
      rcases hro : ro with _ | _
      · rw [hro] at hmask
        exact absurd hmask (by simp)
      · rw [hro] at hmask
        simp only [if_true] at hmask
        exact markReadOnly_ne_mre _ _ _ hmask
    · split
      · rename_i err hmem
        intro h
        injection h with h
        subst h
        rcases data with _ | d
        · exact absurd hmem (by simp)
        · simp only at hmem
          by_cases hd : d = []
          · rw [if_neg (by simp [hd])] at hmem
            exact absurd hmem (by simp)
          · rw [if_pos hd] at hmem
            exact copyData_ne_mre _ _ _ _ _ hmem
      · intro h
        exact absurd h (by simp)

/-- C4 counterexample: the open interiors of the existing region
[16, 32) and the new region [0, 48) intersect (the new region strictly
contains the old one), yet `add_block` accepts the new region, so the
claim that intersecting interiors always raise `MemoryRangeError` is
false. -/
theorem C4_containment_accepted :
    max (0 : Int) 16 < min (0 + 48) (16 + 16) ∧
    ((MMU.new [{ start_addr := 16, length := 16, name := "RAM" }]).bind
      (fun m => m.add_block 0 48 "BIG")).isOk = true :=
  ⟨by decide, rfl⟩

/-! ## C9: lemma toolkit for bit-level reasoning -/

/-- `pyAnd` on two nonnegative integers is the natural-number and. -/
theorem pyAnd_ofNat (m n : Nat) : pyAnd (m : Int) (n : Int) = ((m &&& n : Nat) : Int) := rfl

/-- `pyXor` on two nonnegative integers is the natural-number xor. -/
theorem pyXor_ofNat (m n : Nat) : pyXor (m : Int) (n : Int) = ((m ^^^ n : Nat) : Int) := rfl

/-- `pyNot` of a nonnegative integer is the corresponding `negSucc`. -/
theorem pyNot_ofNat (n : Nat) : pyNot (n : Int) = Int.negSucc n := by
  simp [pyNot, Int.negSucc_eq]
  ring

/-- `pyAnd` of a complement with a nonnegative integer keeps the bits of
the right argument that are not bits of the complemented value. -/
theorem pyAnd_negSucc_ofNat (m n : Nat) :
    pyAnd (Int.negSucc m) (n : Int) = ((n - (n &&& m) : Nat) : Int) := rfl

/-- Truthiness of a cast natural number. -/
theorem pyTruthy_ofNat (k : Nat) : pyTruthy (k : Int) = decide (k ≠ 0) := by
  apply Bool.eq_iff_iff.mpr
  simp [pyTruthy, bne_iff_ne, Int.natCast_eq_zero]

/-- `Int.testBit` of a cast natural number. -/
theorem int_testBit_ofNat (w i : Nat) : ((w : Int)).testBit i = w.testBit i := rfl

/-- Testing `v & 0x80` for truth is testing bit 7. -/
theorem pyTruthy_pyAnd_128 (x : Int) : pyTruthy (pyAnd x 128) = x.testBit 7 := by
  cases x with
  | ofNat m =>
      show pyTruthy ((m &&& 128 : Nat) : Int) = m.testBit 7
      have h : m &&& 128 = (m.testBit 7).toNat * 2 ^ 7 := by
        have h0 := Nat.and_two_pow m 7
        norm_num at h0 ⊢
        exact h0
      rw [pyTruthy_ofNat, h]
      cases m.testBit 7 <;> simp
  | negSucc m =>
      show pyTruthy ((128 - (128 &&& m) : Nat) : Int) = !(m.testBit 7)
      have h : 128 &&& m = 2 ^ 7 * (m.testBit 7).toNat := by
        have h0 := Nat.two_pow_and m 7
        norm_num at h0 ⊢
        exact h0
      rw [pyTruthy_ofNat, h]
      cases m.testBit 7 <;> simp

/-- Boolean equality with zero is decidable equality. -/
theorem int_beq_zero (x : Int) : (x == 0) = decide (x = 0) := by
  apply Bool.eq_iff_iff.mpr
  simp

/-- Adding `2^8` to a byte value only sets bit 8. -/
theorem add_256_or (u : Nat) (hu : u < 256) : 256 + u = 256 ||| u := by
  have h := Nat.mul_add_lt_is_or (b := u) (i := 8) (by norm_num [hu]) 1
  norm_num at h
  exact h

/-- Xor with a byte value passes a set bit 8 through. -/
theorem xor_high (a rl : Nat) (ha : a < 256) (hrl : rl < 256) :
    a ^^^ (256 + rl) = 256 + (a ^^^ rl) := by
  have h1 : 256 + rl = 256 ||| rl := add_256_or rl hrl
  have hax : a ^^^ rl < 256 :=
    Nat.xor_lt_two_pow (n := 8) (by norm_num [ha]) (by norm_num [hrl])
  have h2 : 256 + (a ^^^ rl) = 256 ||| (a ^^^ rl) := add_256_or _ hax
  rw [h1, h2]
  apply Nat.eq_of_testBit_eq
  intro i
  by_cases hi : i = 8
  · subst hi
    simp [Nat.testBit_xor, Nat.testBit_or,
      Nat.testBit_lt_two_pow (show a < 2 ^ 8 by norm_num [ha]),
      Nat.testBit_lt_two_pow (show rl < 2 ^ 8 by norm_num [hrl]),
      show Nat.testBit 256 8 = true from by
        have h := Nat.testBit_two_pow_self (n := 8)
        norm_num at h
        exact h]
  · have h256 : Nat.testBit 256 i = false := by
      have h := Nat.testBit_two_pow (n := 8) (m := i)
      norm_num at h
      rw [h]
      simp [Ne.symm hi]
    simp [Nat.testBit_xor, Nat.testBit_or, h256]

/-- Bit 8 vanishes when anding with a byte value. -/
theorem and_high (u n : Nat) (hu : u < 256) (hn : n < 256) :
    (256 + u) &&& n = u &&& n := by
  rw [add_256_or u hu, Nat.and_distrib_right]
  have h : 256 &&& n = 0 := by
    have h0 := Nat.two_pow_and n 8
    have hb : n.testBit 8 = false := Nat.testBit_lt_two_pow (by norm_num [hn])
    norm_num [hb] at h0
    exact h0
  rw [h, Nat.zero_or]

/-- Bit 7 ignores an added `2^8`. -/
theorem testBit7_high (w : Nat) (hw : w < 256) :
    (256 + w).testBit 7 = w.testBit 7 := by
  rw [add_256_or w hw, Nat.testBit_or]
  have h256 : Nat.testBit 256 7 = false := by
    have h := Nat.testBit_two_pow (n := 8) (m := 7)
    norm_num at h
    exact h
  simp [h256]

set_option maxRecDepth 40000 in
/-- Reading each flag back out of the C, Z, N, V `set_flag` chain that
ADC performs on a byte-valued status register returns the boolean that
was stored, checked by enumeration of all byte values of `p`. -/
theorem chainCZNV (p : Nat) (hp : p < 256) (cb zb nb vb : Bool) :
    pyTruthy (pyAnd (flagSet (flagSet (flagSet (flagSet (p : Int) 1 cb) 2 zb) 128 nb) 64 vb) 1) = cb ∧
    pyTruthy (pyAnd (flagSet (flagSet (flagSet (flagSet (p : Int) 1 cb) 2 zb) 128 nb) 64 vb) 2) = zb ∧
    pyTruthy (pyAnd (flagSet (flagSet (flagSet (flagSet (p : Int) 1 cb) 2 zb) 128 nb) 64 vb) 128) = nb ∧
    pyTruthy (pyAnd (flagSet (flagSet (flagSet (flagSet (p : Int) 1 cb) 2 zb) 128 nb) 64 vb) 64) = vb := by
  revert hp cb zb nb vb
  revert p
  decide

/-- The overflow-bit computation gives the same answer whether it is fed
the raw sum `r` (below 512) or the stored byte `r % 256`, because only
bit 7 of the xor matters. -/
theorem vflag_mod (a v r : Nat) (ha : a < 256) (hv : v < 256) (hr : r < 512) :
    pyTruthy (pyAnd (pyAnd (pyNot (pyXor (a : Int) v)) (pyXor (a : Int) (r : Int))) 128) =
    (pyAnd (pyNot (pyXor (a : Int) v)) (pyXor (a : Int) ((r % 256 : Nat) : Int))).testBit 7 := by
  rw [pyTruthy_pyAnd_128]
  by_cases h2 : r < 256
  · rw [Nat.mod_eq_of_lt h2]
  · have hn : a ^^^ v < 256 :=
      Nat.xor_lt_two_pow (n := 8) (by norm_num [ha]) (by norm_num [hv])
    have hrl : r % 256 < 256 := Nat.mod_lt _ (by norm_num)
    have hsplit : r = 256 + r % 256 := by omega
    have ht : a ^^^ r % 256 < 256 :=
      Nat.xor_lt_two_pow (n := 8) (by norm_num [ha]) (by norm_num [hrl])
    rw [pyXor_ofNat a v, pyNot_ofNat, pyXor_ofNat a r, pyXor_ofNat a (r % 256),
      pyAnd_negSucc_ofNat, pyAnd_negSucc_ofNat, int_testBit_ofNat, int_testBit_ofNat]
    rw [show a ^^^ r = 256 + (a ^^^ r % 256) from by
      conv_lhs => rw [hsplit]
      exact xor_high a (r % 256) ha hrl]
    rw [and_high _ _ ht hn]
    have hle : (a ^^^ r % 256) &&& (a ^^^ v) ≤ a ^^^ r % 256 := Nat.and_le_left
    rw [show 256 + (a ^^^ r % 256) - ((a ^^^ r % 256) &&& (a ^^^ v)) =
        256 + ((a ^^^ r % 256) - ((a ^^^ r % 256) &&& (a ^^^ v))) from by omega]
    exact testBit7_high _ (by omega)

/-- C9: in binary mode (D = 0), for a byte accumulator, byte operand
and byte status register, ADC stores `(A + v + C) mod 256` in `A`, sets
`C` exactly when `A + v + C > 0xFF`, sets `V` to bit 7 of
`~(A ^ v) & (A ^ A_post)`, and sets `Z` and `N` from the new `A`. -/
theorem C9_adc_binary (c : Processor) (v : Int)
    (ha0 : 0 ≤ c.r.a) (ha1 : c.r.a ≤ 255)
    (hv0 : 0 ≤ v) (hv1 : v ≤ 255)
    (hp0 : 0 ≤ c.r.p) (hp1 : c.r.p ≤ 255)
    (hD : c.r.get_flag .D = false) :
    (c.ADC v).r.a = (c.r.a + v + boolInt (c.r.get_flag .C)) % 256 ∧
    (c.ADC v).r.get_flag .C =
      decide (c.r.a + v + boolInt (c.r.get_flag .C) > 0xff) ∧
    (c.ADC v).r.get_flag .V =
      (pyAnd (pyNot (pyXor c.r.a v)) (pyXor c.r.a (c.ADC v).r.a)).testBit 7 ∧
    (c.ADC v).r.get_flag .Z = decide ((c.ADC v).r.a = 0) ∧
    (c.ADC v).r.get_flag .N = ((c.ADC v).r.a).testBit 7 := by
  obtain ⟨an, ha_eq, han⟩ : ∃ an : Nat, c.r.a = (an : Int) ∧ an < 256 :=
    ⟨c.r.a.toNat, (Int.toNat_of_nonneg ha0).symm, by omega⟩
  obtain ⟨vn, hv_eq, hvn⟩ : ∃ vn : Nat, v = (vn : Int) ∧ vn < 256 :=
    ⟨v.toNat, (Int.toNat_of_nonneg hv0).symm, by omega⟩
  obtain ⟨pn, hp_eq, hpn⟩ : ∃ pn : Nat, c.r.p = (pn : Int) ∧ pn < 256 :=
    ⟨c.r.p.toNat, (Int.toNat_of_nonneg hp0).symm, by omega⟩
  have hchain := chainCZNV pn hpn
  simp only [Processor.ADC, hD, Bool.false_eq_true, if_false]
  simp only [Registers.ZN, Registers.set_flag, Registers.get_flag, flagbyte]
  simp only [ha_eq, hv_eq, hp_eq]
  obtain ⟨cn, hcn_eq, hcn⟩ :
      ∃ cn : Nat, boolInt (pyTruthy (pyAnd ((pn : Nat) : Int) 1)) = (cn : Int) ∧ cn < 2 := by
    cases pyTruthy (pyAnd ((pn : Nat) : Int) 1)
    · exact ⟨0, by norm_num [boolInt], by norm_num⟩
    · exact ⟨1, by norm_num [boolInt], by norm_num⟩
  simp only [hcn_eq]
  have hcast : ((an : Int)) + vn + cn = ((an + vn + cn : Nat) : Int) := by push_cast; ring
  simp only [hcast]
  have hrn : an + vn + cn < 512 := by omega
  have hand : (an + vn + cn) &&& 255 = (an + vn + cn) % 256 := by
    have h := Nat.and_pow_two_sub_one_eq_mod (an + vn + cn) 8
    norm_num at h
    exact h
  have haval : pyAnd (((an + vn + cn : Nat) : Int)) 255 = (((an + vn + cn) % 256 : Nat) : Int) := by
    rw [show ((255 : Int)) = ((255 : Nat) : Int) from rfl, pyAnd_ofNat, hand]
  refine ⟨?_, ?_, ?_, ?_, ?_⟩
  · rw [haval]
    push_cast
    ring
  · exact (hchain _ _ _ _).1
  · rw [(hchain _ _ _ _).2.2.2, haval,
      vflag_mod an vn (an + vn + cn) han hvn hrn]
  · rw [(hchain _ _ _ _).2.1]
    exact int_beq_zero _
  · rw [(hchain _ _ _ _).2.2.1]
    exact pyTruthy_pyAnd_128 _

/-- Concrete processor for the C9 witness: `A = 0x50`, flags reset
(`D = 0`, `C = 0`). -/
def c9w : Processor := { proc0 0 with r := { Registers.reset 0 with a := 0x50 } }

/-- Witness for C9: adding `0x50` to `A = 0x50` with carry clear gives
`A = 0xA0` with `C = 0`, `V = 1`, `Z = 0`, `N = 1`. -/
theorem C9_adc_binary_witness :
    (c9w.ADC 0x50).r.a = 0xa0 ∧
    (c9w.ADC 0x50).r.get_flag .C = false ∧
    (c9w.ADC 0x50).r.get_flag .V = true ∧
    (c9w.ADC 0x50).r.get_flag .Z = false ∧
    (c9w.ADC 0x50).r.get_flag .N = true := by
  have h := C9_adc_binary c9w 0x50 (by decide) (by decide) (by decide) (by decide)
      (by decide) (by decide) (by decide)
  exact ⟨h.1.trans (by decide), h.2.1.trans (by decide), h.2.2.1.trans (by decide),
    h.2.2.2.1.trans (by decide), h.2.2.2.2.trans (by decide)⟩

/-! ## C5: cycle accounting of the Absolute,X addressing family -/

/-- Pure in the `Except` monad is `ok`. -/
theorem pure_eq_ok {α : Type} (a : α) : (pure a : Except PyErr α) = Except.ok a := rfl

/-- Reductions for the `Except` bind and map used by `step`. -/
theorem ok_bind {α β : Type} (a : α) (f : α → Except PyErr β) :
    (Except.ok a : Except PyErr α) >>= f = f a := rfl

/-- Binding an error propagates it. -/
theorem error_bind {α β : Type} (e : PyErr) (f : α → Except PyErr β) :
    (Except.error e : Except PyErr α) >>= f = .error e := rfl

/-- Mapping over a success applies the function. -/
theorem map_ok {α β : Type} (g : α → β) (a : α) :
    (Except.ok a : Except PyErr α).map g = .ok (g a) := rfl

/-- Mapping over an error keeps the error. -/
theorem map_error {α β : Type} (g : α → β) (e : PyErr) :
    (Except.error e : Except PyErr α).map g = .error e := rfl

/-- A successful fetch advances `pc` and returns the byte. -/
theorem read_byte_eq {c : Processor} {v : Nat} (h : c.mmu.read c.r.pc = .ok v) :
    c.read_byte = .ok ((v : Int), { c with r.pc := c.r.pc + 1 }) := by
  unfold Processor.read_byte
  rw [h]
  rfl

/-- A successful 16-bit fetch advances `pc` twice and returns the
little-endian word. -/
theorem read_word_eq {c : Processor} {lo hi : Nat}
    (h1 : c.mmu.read c.r.pc = .ok lo)
    (h2 : c.mmu.read (c.r.pc + 1) = .ok hi) :
    c.read_word = .ok (pyShl (hi : Int) 8 + (lo : Int), { c with r.pc := c.r.pc + 2 }) := by
  unfold Processor.read_word
  simp only [read_byte_eq h1, ok_bind]
  simp only [read_byte_eq (c := { c with r.pc := c.r.pc + 1 }) h2, ok_bind]
  have harith : c.r.pc + 1 + 1 = c.r.pc + 2 := by ring
  simp [harith, pure_eq_ok]

/-- What `_load_addr_x` returns after two successful fetches: the final
address `(base + X) & 0xFFFF` and the state with `pc` advanced and the
floor-division page-cross penalty added to the cycle counter. -/
theorem load_addr_x_eq {c : Processor} {lo hi : Nat}
    (h1 : c.mmu.read c.r.pc = .ok lo)
    (h2 : c.mmu.read (c.r.pc + 1) = .ok hi) :
    c._load_addr_x = .ok (pyAnd (pyShl (hi : Int) 8 + (lo : Int) + c.r.x) 0xffff,
      { c with r.pc := c.r.pc + 2,
               cycles := c.cycles +
                 (if Int.fdiv (pyShl (hi : Int) 8 + (lo : Int)) 0xff ≠
                     Int.fdiv (pyAnd (pyShl (hi : Int) 8 + (lo : Int) + c.r.x) 0xffff) 0xff
                  then 1 else 0) }) := by
  unfold Processor._load_addr_x
  simp only [read_word_eq h1 h2, ok_bind]
  by_cases hcross : Int.fdiv (pyShl (hi : Int) 8 + (lo : Int)) 0xff ≠
      Int.fdiv (pyAnd (pyShl (hi : Int) 8 + (lo : Int) + c.r.x) 0xffff) 0xff
  · rw [if_pos hcross, if_pos hcross]
    rfl
  · rw [if_neg hcross, if_neg hcross]
    simp [pure_eq_ok]

/-- The opcodes whose third table slot is `_load_addr_x` or
`_load_addr_x_value` (the Absolute,X family). -/
def absx_ops : List Nat :=
  [0x7d, 0x3d, 0x1e, 0xdd, 0xde, 0x5d, 0xfe, 0xbd, 0xbc, 0x5e, 0x1d, 0x3e, 0x7e, 0xfd, 0x9d]

/-- Base cycle count of an opcode, read off the table. -/
def opBaseCycles (op : Nat) : Int :=
  match List.lookup ((op : Nat) : Int) opsTable with
  | some entry => entry.2.2.2
  | none => 0

/-- Successfully executing an instruction with a numeric argument never
changes the cycle counter (the only operation that touches `cycles` is
`BRA`, which is not in this family). -/
theorem tail_cycles {cB : Processor} {ins : Instr} {v cy cyc : Int}
    (hexec : ∀ (cp : Processor) (vp : Int) (c2 : Processor),
      cp.execInstr ins (.num vp) = .ok c2 → c2.cycles = cp.cycles)
    (h : ((cB.execInstr ins (.num v)) >>= fun c4 =>
      (pure { c4 with cycles := c4.cycles + cy } : Except PyErr Processor)).map
        Processor.cycles = .ok cyc) :
    cyc = cB.cycles + cy := by
  cases hex : cB.execInstr ins (.num v) with
  | error e =>
      rw [hex, error_bind, map_error] at h
      exact Except.noConfusion h
  | ok c2 =>
      rw [hex, ok_bind, pure_eq_ok, map_ok] at h
      injection h with h
      rw [← h]
      show c2.cycles + cy = cB.cycles + cy
      rw [hexec cB v c2 hex]

/-- Cycle preservation of `ADC`. -/
theorem execInstr_cycles_ADC : ∀ (c : Processor) (v : Int) (c2 : Processor),
    c.execInstr .ADC (.num v) = .ok c2 → c2.cycles = c.cycles := by
  intro c v c2 h
  rw [show c.execInstr .ADC (.num v) = .ok (c.ADC v) from rfl] at h
  injection h with h
  rw [← h]
  unfold Processor.ADC
  split <;> rfl

/-- Cycle preservation of `AND`. -/
theorem execInstr_cycles_AND : ∀ (c : Processor) (v : Int) (c2 : Processor),
    c.execInstr .AND (.num v) = .ok c2 → c2.cycles = c.cycles := by
  intro c v c2 h
  rw [show c.execInstr .AND (.num v) = .ok (c.AND v) from rfl] at h
  injection h with h
  rw [← h]
  rfl

/-- Cycle preservation of `CMP`. -/
theorem execInstr_cycles_CMP : ∀ (c : Processor) (v : Int) (c2 : Processor),
    c.execInstr .CMP (.num v) = .ok c2 → c2.cycles = c.cycles := by
  intro c v c2 h
  rw [show c.execInstr .CMP (.num v) = .ok (c.CMP v) from rfl] at h
  injection h with h
  rw [← h]
  rfl

/-- Cycle preservation of `EOR`. -/
theorem execInstr_cycles_EOR : ∀ (c : Processor) (v : Int) (c2 : Processor),
    c.execInstr .EOR (.num v) = .ok c2 → c2.cycles = c.cycles := by
  intro c v c2 h
  rw [show c.execInstr .EOR (.num v) = .ok (c.EOR v) from rfl] at h
  injection h with h
  rw [← h]
  rfl

/-- Cycle preservation of `LDA`. -/
theorem execInstr_cycles_LDA : ∀ (c : Processor) (v : Int) (c2 : Processor),
    c.execInstr .LDA (.num v) = .ok c2 → c2.cycles = c.cycles := by
  intro c v c2 h
  rw [show c.execInstr .LDA (.num v) = .ok (c.LDA v) from rfl] at h
  injection h with h
  rw [← h]
  rfl

/-- Cycle preservation of `LDY`. -/
theorem execInstr_cycles_LDY : ∀ (c : Processor) (v : Int) (c2 : Processor),
    c.execInstr .LDY (.num v) = .ok c2 → c2.cycles = c.cycles := by
  intro c v c2 h
  rw [show c.execInstr .LDY (.num v) = .ok (c.LDY v) from rfl] at h
  injection h with h
  rw [← h]
  rfl

/-- Cycle preservation of `ORA`. -/
theorem execInstr_cycles_ORA : ∀ (c : Processor) (v : Int) (c2 : Processor),
    c.execInstr .ORA (.num v) = .ok c2 → c2.cycles = c.cycles := by
  intro c v c2 h
  rw [show c.execInstr .ORA (.num v) = .ok (c.ORA v) from rfl] at h
  injection h with h
  rw [← h]
  rfl

/-- Cycle preservation of `SBC`. -/
theorem execInstr_cycles_SBC : ∀ (c : Processor) (v : Int) (c2 : Processor),
    c.execInstr .SBC (.num v) = .ok c2 → c2.cycles = c.cycles := by
  intro c v c2 h
  rw [show c.execInstr .SBC (.num v) = .ok (c.SBC v) from rfl] at h
  injection h with h
  rw [← h]
  unfold Processor.SBC
  split <;> rfl

/-- Cycle preservation of the memory variant of `ASL`. -/
theorem execInstr_cycles_ASL : ∀ (c : Processor) (v : Int) (c2 : Processor),
    c.execInstr .ASL (.num v) = .ok c2 → c2.cycles = c.cycles := by
  intro c v c2 h
  rw [show c.execInstr .ASL (.num v) = c.ASL_mem v from rfl] at h
  unfold Processor.ASL_mem at h
  cases hr : c.mmu.read v with
  | error e =>
      rw [hr, error_bind] at h
      exact Except.noConfusion h
  | ok b =>
      rw [hr, ok_bind] at h
      simp only [] at h
      cases hw : c.mmu.write v (pyShl ((b : Nat) : Int) 1) with
      | error e =>
          rw [hw, error_bind] at h
          exact Except.noConfusion h
      | ok m =>
          rw [hw, ok_bind, pure_eq_ok] at h
          injection h with h
          rw [← h]

/-- Cycle preservation of the memory variant of `ROL`. -/
theorem execInstr_cycles_ROL : ∀ (c : Processor) (v : Int) (c2 : Processor),
    c.execInstr .ROL (.num v) = .ok c2 → c2.cycles = c.cycles := by
  intro c v c2 h
  rw [show c.execInstr .ROL (.num v) = c.ROL_mem v from rfl] at h
  unfold Processor.ROL_mem at h
  cases hr : c.mmu.read v with
  | error e =>
      rw [hr, error_bind] at h
      exact Except.noConfusion h
  | ok b =>
      rw [hr, ok_bind] at h
      simp only [] at h
      cases hw : c.mmu.write v (pyAnd (pyShl ((b : Nat) : Int) 1 + boolInt (c.r.get_flag .C)) 255) with
      | error e =>
          rw [hw, error_bind] at h
          exact Except.noConfusion h
      | ok m =>
          rw [hw, ok_bind, pure_eq_ok] at h
          injection h with h
          rw [← h]

/-- Cycle preservation of the memory variant of `ROR`. -/
theorem execInstr_cycles_ROR : ∀ (c : Processor) (v : Int) (c2 : Processor),
    c.execInstr .ROR (.num v) = .ok c2 → c2.cycles = c.cycles := by
  intro c v c2 h
  rw [show c.execInstr .ROR (.num v) = c.ROR_mem v from rfl] at h
  unfold Processor.ROR_mem at h
  cases hr : c.mmu.read v with
  | error e =>
      rw [hr, error_bind] at h
      exact Except.noConfusion h
  | ok b =>
      rw [hr, ok_bind] at h
      simp only [] at h
      cases hw : c.mmu.write v (pyAnd (pyShr ((b : Nat) : Int) 1 + boolInt (c.r.get_flag .C) * 0x80) 255) with
      | error e =>
          rw [hw, error_bind] at h
          exact Except.noConfusion h
      | ok m =>
          rw [hw, ok_bind, pure_eq_ok] at h
          injection h with h
          rw [← h]

/-- The memory variant of `DEC` always raises, so cycle preservation
holds vacuously. -/
theorem execInstr_cycles_DEC : ∀ (c : Processor) (v : Int) (c2 : Processor),
    c.execInstr .DEC (.num v) = .ok c2 → c2.cycles = c.cycles := by
  intro c v c2 h
  rw [show c.execInstr .DEC (.num v) = c.DEC v from rfl] at h
  unfold Processor.DEC at h
  cases hr : c.mmu.read v with
  | error e =>
      rw [hr, error_bind] at h
      exact Except.noConfusion h
  | ok b =>
      rw [hr, ok_bind] at h
      exact Except.noConfusion h

/-- The memory variant of `INC` always raises, so cycle preservation
holds vacuously. -/
theorem execInstr_cycles_INC : ∀ (c : Processor) (v : Int) (c2 : Processor),
    c.execInstr .INC (.num v) = .ok c2 → c2.cycles = c.cycles := by
  intro c v c2 h
  rw [show c.execInstr .INC (.num v) = c.INC v from rfl] at h
  unfold Processor.INC at h
  cases hr : c.mmu.read v with
  | error e =>
      rw [hr, error_bind] at h
      exact Except.noConfusion h
  | ok b =>
      rw [hr, ok_bind] at h
      exact Except.noConfusion h

/-- The memory variant of `LSR` always raises, so cycle preservation
holds vacuously. -/
theorem execInstr_cycles_LSR : ∀ (c : Processor) (v : Int) (c2 : Processor),
    c.execInstr .LSR (.num v) = .ok c2 → c2.cycles = c.cycles := by
  intro c v c2 h
  rw [show c.execInstr .LSR (.num v) = c.LSR_mem v from rfl] at h
  unfold Processor.LSR_mem at h
  cases hr : c.mmu.read v with
  | error e =>
      rw [hr, error_bind] at h
      exact Except.noConfusion h
  | ok b =>
      rw [hr, ok_bind] at h
      exact Except.noConfusion h

/-- Cycle preservation of `STA`. -/
theorem execInstr_cycles_STA : ∀ (c : Processor) (v : Int) (c2 : Processor),
    c.execInstr .STA (.num v) = .ok c2 → c2.cycles = c.cycles := by
  intro c v c2 h
  rw [show c.execInstr .STA (.num v) = c.STA v from rfl] at h
  unfold Processor.STA at h
  cases hw : c.mmu.write v c.r.a with
  | error e =>
      rw [hw, error_bind] at h
      exact Except.noConfusion h
  | ok m =>
      rw [hw, ok_bind, pure_eq_ok] at h
      injection h with h
      rw [← h]

set_option maxHeartbeats 2000000 in
/-- One `step` of any opcode whose table slot is
(`_load_addr_x_value`, base cycles `cy`) and whose operation does not
touch the cycle counter charges exactly `cy` plus the floor-division
page-cross penalty of `_load_addr_x`. -/
theorem step_absx_value_cycles {c : Processor} {op lo hi : Nat} {nm : String}
    {ins : Instr} {cy cyc : Int}
    (htab : List.lookup ((op : Nat) : Int) opsTable =
      some (nm, ins, Arg.mode AddrMode.load_addr_x_value, cy))
    (hexec : ∀ (cp : Processor) (vp : Int) (c2 : Processor),
      cp.execInstr ins (.num vp) = .ok c2 → c2.cycles = cp.cycles)
    (hop : c.mmu.read c.r.pc = .ok op)
    (hlo : c.mmu.read (c.r.pc + 1) = .ok lo)
    (hhi : c.mmu.read (c.r.pc + 2) = .ok hi)
    (hstep : (Processor.step c).map Processor.cycles = .ok cyc) :
    cyc = c.cycles + cy +
      (if Int.fdiv (pyShl (hi : Int) 8 + (lo : Int)) 0xff ≠
          Int.fdiv (pyAnd (pyShl (hi : Int) 8 + (lo : Int) + c.r.x) 0xffff) 0xff
       then 1 else 0) := by
  have hhi2 : c.mmu.read (c.r.pc + 1 + 1) = .ok hi := by
    rw [show c.r.pc + 1 + 1 = c.r.pc + 2 from by ring]; exact hhi
  simp only [Processor.step, read_byte_eq hop, ok_bind, htab] at hstep
  simp only [Processor.resolveArg, Processor.runMode, Processor._load_addr_x_value,
    load_addr_x_eq (c := { c with r.pc := c.r.pc + 1 }) hlo hhi2, ok_bind] at hstep
  cases hread : c.mmu.read (pyAnd (pyShl (hi : Int) 8 + (lo : Int) + c.r.x) 0xffff) with
  | error e =>
      simp only [hread, error_bind, map_error] at hstep
      exact Except.noConfusion hstep
  | ok w =>
      simp only [hread, ok_bind] at hstep
      have h2 := tail_cycles hexec hstep
      rw [h2]
      show c.cycles +
        (if Int.fdiv (pyShl (hi : Int) 8 + (lo : Int)) 0xff ≠
            Int.fdiv (pyAnd (pyShl (hi : Int) 8 + (lo : Int) + c.r.x) 0xffff) 0xff
         then 1 else 0) + cy = _
      ring

set_option maxHeartbeats 2000000 in
/-- One `step` of any opcode whose table slot is
(`_load_addr_x`, base cycles `cy`) and whose operation does not touch
the cycle counter charges exactly `cy` plus the floor-division
page-cross penalty of `_load_addr_x` (vacuously true for operations
that always raise). -/
theorem step_absx_addr_cycles {c : Processor} {op lo hi : Nat} {nm : String}
    {ins : Instr} {cy cyc : Int}
    (htab : List.lookup ((op : Nat) : Int) opsTable =
      some (nm, ins, Arg.mode AddrMode.load_addr_x, cy))
    (hexec : ∀ (cp : Processor) (vp : Int) (c2 : Processor),
      cp.execInstr ins (.num vp) = .ok c2 → c2.cycles = cp.cycles)
    (hop : c.mmu.read c.r.pc = .ok op)
    (hlo : c.mmu.read (c.r.pc + 1) = .ok lo)
    (hhi : c.mmu.read (c.r.pc + 2) = .ok hi)
    (hstep : (Processor.step c).map Processor.cycles = .ok cyc) :
    cyc = c.cycles + cy +
      (if Int.fdiv (pyShl (hi : Int) 8 + (lo : Int)) 0xff ≠
          Int.fdiv (pyAnd (pyShl (hi : Int) 8 + (lo : Int) + c.r.x) 0xffff) 0xff
       then 1 else 0) := by
  have hhi2 : c.mmu.read (c.r.pc + 1 + 1) = .ok hi := by
    rw [show c.r.pc + 1 + 1 = c.r.pc + 2 from by ring]; exact hhi
  simp only [Processor.step, read_byte_eq hop, ok_bind, htab] at hstep
  simp only [Processor.resolveArg, Processor.runMode,
    load_addr_x_eq (c := { c with r.pc := c.r.pc + 1 }) hlo hhi2, ok_bind] at hstep
  have h2 := tail_cycles hexec hstep
  rw [h2]
  show c.cycles +
    (if Int.fdiv (pyShl (hi : Int) 8 + (lo : Int)) 0xff ≠
        Int.fdiv (pyAnd (pyShl (hi : Int) 8 + (lo : Int) + c.r.x) 0xffff) 0xff
     then 1 else 0) + cy = _
  ring

/-- Witness for C4 at a concrete MMU: with an existing block [0, 16),
adding [8, 24) raises `MemoryRangeError` because its start 8 lies
strictly inside (0, 16). -/
theorem C4_overlap_iff_witness :
    ({ memory := fun _ => 0, read_only_mask := fun _ => false,
       blocks := [{ start := 0, length := 16, name := "A", read_only := false }] } :
        MMU).add_block 8 16 "B" false none = .error .memoryRangeError :=
  (C4_overlap_iff _ 8 16 "B" false none).mpr
    ⟨{ start := 0, length := 16, name := "A", read_only := false },
     by simp, Or.inl (by norm_num)⟩

/-- C5 amended: for every opcode of the Absolute,X family, when `step`
completes without raising, the cycle counter grows by exactly the base
cycle count of the opcode plus 1 exactly when
`math.floor(base/0xFF) != math.floor(final/0xFF)` (the criterion the
code actually implements, with divisor 255, not the high-byte
comparison `base & 0xFF00 != final & 0xFF00` of the claim). -/
theorem C5_absx_cycles (c : Processor) (op lo hi : Nat) (cyc : Int)
    (hin : op ∈ absx_ops)
    (hop : c.mmu.read c.r.pc = .ok op)
    (hlo : c.mmu.read (c.r.pc + 1) = .ok lo)
    (hhi : c.mmu.read (c.r.pc + 2) = .ok hi)
    (hstep : (Processor.step c).map Processor.cycles = .ok cyc) :
    cyc = c.cycles + opBaseCycles op +
      (if Int.fdiv (pyShl (hi : Int) 8 + (lo : Int)) 0xff ≠
          Int.fdiv (pyAnd (pyShl (hi : Int) 8 + (lo : Int) + c.r.x) 0xffff) 0xff
       then 1 else 0) := by
  fin_cases hin
  · exact step_absx_value_cycles
      (show List.lookup ((0x7d : Nat) : Int) opsTable =
        some ("ADC A,x", .ADC, .mode .load_addr_x_value, 4) from rfl)
      execInstr_cycles_ADC hop hlo hhi hstep
  · exact step_absx_value_cycles
      (show List.lookup ((0x3d : Nat) : Int) opsTable =
        some ("AND A,x", .AND, .mode .load_addr_x_value, 4) from rfl)
      execInstr_cycles_AND hop hlo hhi hstep
  · exact step_absx_addr_cycles
      (show List.lookup ((0x1e : Nat) : Int) opsTable =
        some ("ASL A,x", .ASL, .mode .load_addr_x, 7) from rfl)
      execInstr_cycles_ASL hop hlo hhi hstep
  · exact step_absx_value_cycles
      (show List.lookup ((0xdd : Nat) : Int) opsTable =
        some ("CMP A,x", .CMP, .mode .load_addr_x_value, 4) from rfl)
      execInstr_cycles_CMP hop hlo hhi hstep
  · exact step_absx_addr_cycles
      (show List.lookup ((0xde : Nat) : Int) opsTable =
        some ("DEC A,x", .DEC, .mode .load_addr_x, 7) from rfl)
      execInstr_cycles_DEC hop hlo hhi hstep
  · exact step_absx_value_cycles
      (show List.lookup ((0x5d : Nat) : Int) opsTable =
        some ("EOR A,x", .EOR, .mode .load_addr_x_value, 4) from rfl)
      execInstr_cycles_EOR hop hlo hhi hstep
  · exact step_absx_addr_cycles
      (show List.lookup ((0xfe : Nat) : Int) opsTable =
        some ("INC A,x", .INC, .mode .load_addr_x, 7) from rfl)
      execInstr_cycles_INC hop hlo hhi hstep
  · exact step_absx_value_cycles
      (show List.lookup ((0xbd : Nat) : Int) opsTable =
        some ("LDA A,x", .LDA, .mode .load_addr_x_value, 4) from rfl)
      execInstr_cycles_LDA hop hlo hhi hstep
  · exact step_absx_value_cycles
      (show List.lookup ((0xbc : Nat) : Int) opsTable =
        some ("LDY A,x", .LDY, .mode .load_addr_x_value, 4) from rfl)
      execInstr_cycles_LDY hop hlo hhi hstep
  · exact step_absx_addr_cycles
      (show List.lookup ((0x5e : Nat) : Int) opsTable =
        some ("LSR A,x", .LSR, .mode .load_addr_x, 7) from rfl)
      execInstr_cycles_LSR hop hlo hhi hstep
  · exact step_absx_value_cycles
      (show List.lookup ((0x1d : Nat) : Int) opsTable =
        some ("ORA A,x", .ORA, .mode .load_addr_x_value, 4) from rfl)
      execInstr_cycles_ORA hop hlo hhi hstep
  · exact step_absx_addr_cycles
      (show List.lookup ((0x3e : Nat) : Int) opsTable =
        some ("ROL A,x", .ROL, .mode .load_addr_x, 7) from rfl)
      execInstr_cycles_ROL hop hlo hhi hstep
  · exact step_absx_addr_cycles
      (show List.lookup ((0x7e : Nat) : Int) opsTable =
        some ("ROR A,x", .ROR, .mode .load_addr_x, 7) from rfl)
      execInstr_cycles_ROR hop hlo hhi hstep
  · exact step_absx_value_cycles
      (show List.lookup ((0xfd : Nat) : Int) opsTable =
        some ("SBC A,x", .SBC, .mode .load_addr_x_value, 4) from rfl)
      execInstr_cycles_SBC hop hlo hhi hstep
  · exact step_absx_addr_cycles
      (show List.lookup ((0x9d : Nat) : Int) opsTable =
        some ("STA A,x", .STA, .mode .load_addr_x, 5) from rfl)
      execInstr_cycles_STA hop hlo hhi hstep

/-- Concrete state for the C5 counterexample and witness: `LDA $00FE,X`
(bytes `BD FE 00`) at `PC = $0200` with `X = 1`, so the base address is
$00FE and the final address $00FF, on the same page. -/
def c5w : Processor :=
  { proc0 0x200 with
    r := { Registers.reset 0x200 with x := 1 },
    mmu := { mmu0 with memory := fun a =>
      if a = 0x200 then 0xbd else if a = 0x201 then 0xfe else 0 } }

/-- C5 counterexample: for `LDA $00FE,X` with `X = 1` the base and
final addresses share their high byte (`base & 0xFF00 = final & 0xFF00`),
so the claim predicts exactly the base cycle count 4, but one `step`
charges 4 + 1 cycles (the code floor-divides by 0xFF, and
`floor(0xFE/0xFF) = 0` differs from `floor(0xFF/0xFF) = 1`). -/
theorem C5_same_page_extra_cycle :
    pyAnd 0xfe 0xff00 = pyAnd (0xfe + 1) 0xff00 ∧
    (Processor.step c5w).map Processor.cycles = .ok (7 + (4 + 1)) :=
  ⟨by decide, rfl⟩

/-- Witness for C5 at the `c5w` state: the hypotheses hold by
evaluation and the cycle count is `7 + 4 + 1`. -/
theorem C5_absx_cycles_witness :
    (12 : Int) = c5w.cycles + opBaseCycles 0xbd +
      (if Int.fdiv (pyShl ((0 : Nat) : Int) 8 + ((0xfe : Nat) : Int)) 0xff ≠
          Int.fdiv (pyAnd (pyShl ((0 : Nat) : Int) 8 + ((0xfe : Nat) : Int) + c5w.r.x) 0xffff) 0xff
       then 1 else 0) :=
  C5_absx_cycles c5w 0xbd 0xfe 0 12 (by decide) rfl rfl rfl rfl

end PyEmul
